import Mathlib

/-!
# Message-queue client (`component/mns/client.go`)

A shallow embedding of the MNS client: the queue and topic registries
(`AddQueue`, `GetQueue`, `getTopic`, `ListenQueues`), the single-receive
consumption routine `ReceiveMessage` with its worker goroutine and the three
unbuffered channels it synchronises on, and the publisher `PublishMessage`.

Go maps are association lists in which a key occurs at most once after a
write; goroutines and channels are a two-thread step machine whose only
synchronisation points are the channel rendezvous of the source.
-/

namespace Mns

/-- Go `error` values, represented by their message (`err.Error()`). -/
abbrev Err := String

/-- A Go `[]byte`, or a Go `string` seen as its bytes; every element is below
256 in the values the client builds. -/
abbrev Bytes := List Nat

/-- The three methods of the logger that the client calls on `log.MQ()`. -/
inductive Level where
  | info
  | warn
  | error
deriving DecidableEq, Repr

/-- Modelled from the spec: the `Params` envelope type is declared outside the
two source files; the spec gives it the fields content, tag, traceId and sign.
The payload type is left open. -/
structure Params (α : Type) where
  Content : α
  Tag : String
  TraceId : String
  Sign : String
deriving DecidableEq, Repr

/-- The fields of `alimns.MessageReceiveResponse` that the client reads. -/
structure MessageReceiveResponse where
  MessageBody : String
  ReceiptHandle : String
deriving DecidableEq, Repr

/-- The fields of `alimns.MessagePublishRequest` that the client fills. -/
structure MessagePublishRequest where
  MessageBody : String
  MessageTag : String
deriving DecidableEq, Repr

/-- The fields of `alimns.MessageSendResponse` that the client reads. -/
structure MessageSendResponse where
  MessageId : String
  Code : Int
deriving DecidableEq, Repr

/-- A registered queue.  `handler` is `none` for a nil `QueueHandler`;
`queueInstance` is the name the SDK queue handle was created for by
`alimns.NewMNSQueue(name, cli.instance)`, `none` for the nil handle of the
zero `Queue{}`. -/
structure Queue (H : Type) where
  Name : String
  handler : Option H
  WaitSecond : Int
  queueInstance : Option String
deriving DecidableEq, Repr

/-- A topic; `Instance` is the name the SDK topic handle was created for. -/
structure Topic where
  Name : String
  Instance : String
deriving DecidableEq, Repr

/-- The zero value `Queue{}` that a Go map read returns for a missing key. -/
def Queue.zero {H : Type} : Queue H :=
  { Name := "", handler := none, WaitSecond := 0, queueInstance := none }

/-- The method `HasHandler`: the handler is not nil. -/
def Queue.HasHandler {H : Type} (q : Queue H) : Bool :=
  q.handler.isSome

/-- A Go `map[string]V`. -/
abbrev GoMap (V : Type) := List (String × V)

/-- Map read `m[k]` with the comma-ok form. -/
def GoMap.find {V : Type} (m : GoMap V) (k : String) : Option V :=
  (List.find? (fun e => decide (e.1 = k)) m).map Prod.snd

/-- Map write `m[k] = v`: any entry under `k` is dropped, the new one added. -/
def GoMap.set {V : Type} (m : GoMap V) (k : String) (v : V) : GoMap V :=
  List.filter (fun e => decide (e.1 ≠ k)) m ++ [(k, v)]

/-- The entries stored under key `k`. -/
def GoMap.entries {V : Type} (m : GoMap V) (k : String) : List (String × V) :=
  List.filter (fun e => decide (e.1 = k)) m

/-- The `client` struct.  The SDK connection `instance` carries no state the
client reads and is left out. -/
structure client (H : Type) where
  accessKeySecret : String
  queueItems : GoMap (Queue H)
  topicItems : GoMap Topic
deriving Repr

/-- `NewClient`: empty registries. -/
def NewClient (H : Type) (accessKeySecret : String) : client H :=
  { accessKeySecret := accessKeySecret, queueItems := [], topicItems := [] }

/-- `AddQueue`: builds the queue and stores it under its name. -/
def client.AddQueue {H : Type} (cli : client H) (name : String) (handler : Option H)
    (waitSecond : Int) : client H :=
  let q : Queue H :=
    { Name := name, handler := handler, WaitSecond := waitSecond, queueInstance := some name }
  { cli with queueItems := cli.queueItems.set name q }

/-- `GetQueue`: map read, the zero queue when the name is not registered. -/
def client.GetQueue {H : Type} (cli : client H) (name : String) : Queue H :=
  (cli.queueItems.find name).getD Queue.zero

/-- `getTopic`: creates and caches the topic on first use; returns the updated
client and the topic. -/
def client.getTopic {H : Type} (cli : client H) (name : String) : client H × Topic :=
  match cli.topicItems.find name with
  | some t => (cli, t)
  | none =>
    let t : Topic := { Name := name, Instance := name }
    ({ cli with topicItems := cli.topicItems.set name t }, t)

/-- `ListenQueues`: the argument of every `go cli.ReceiveMessage(item.Name)`
that is started, one per map entry whose queue has a handler. -/
def client.ListenQueues {H : Type} (cli : client H) : List String :=
  if cli.queueItems.length = 0 then []
  else (cli.queueItems.filter (fun e => e.2.HasHandler)).map (fun e => e.2.Name)

/-! ## Consumption: `ReceiveMessage` -/

/-- What the client does to the outside world, in program order. -/
inductive Event (α H : Type) where
  /-- the SDK call `q.instance.ReceiveMessage(respChan, errChan, waitseconds)` -/
  | receive (queue : String) (waitseconds : Int)
  /-- the call `q.handler(params)` -/
  | handle (h : H) (p : Params α)
  /-- the call `q.DeleteMessage(receiptHandle)` -/
  | delete (queue : String) (receiptHandle : String)
  /-- the SDK call `topic.Instance.PublishMessage(request)` -/
  | publish (topic : String) (req : MessagePublishRequest)
  /-- a record written through `log.MQ()`: the method, the event name and the
  `err` entry of its context when there is one -/
  | log (lvl : Level) (event : String) (err : Option Err)
deriving DecidableEq, Repr

/-- The collaborators of the consumer that are not in the two source files:
the transport, the body decoder and the way a handler value is run. -/
structure Env (α H : Type) where
  /-- outcome of the `k`-th long-poll receive on the named queue: the SDK
  sends either a response on `respChan` or an error on `errChan` -/
  poll : String → Nat → Except Err MessageReceiveResponse
  /-- `strings.DecodeBase64`, the result seen as bytes -/
  DecodeBase64 : String → Bytes
  /-- `json.Decode` into a `Params` -/
  Decode : Bytes → Except Err (Params α)
  /-- what calling the handler on an envelope returns (`none` is a nil error) -/
  call : H → Params α → Option Err
  /-- what `DeleteMessage` on the named queue returns for a receipt handle -/
  DeleteMessage : String → String → Option Err

/-- Where the goroutine that called `ReceiveMessage` stands. -/
inductive MainPc where
  /-- before the call `q.instance.ReceiveMessage(...)` of line 164 -/
  | polling
  /-- inside the SDK call, blocked on `respChan <- resp` -/
  | sendResp (resp : MessageReceiveResponse)
  /-- inside the SDK call, blocked on `errChan <- err` -/
  | sendErr (err : Err)
  /-- blocked on `<-endChan` of line 165 -/
  | waitEnd
  /-- `ReceiveMessage` has returned to its caller -/
  | returned
  /-- nil dereference: the queue has no SDK handle -/
  | panicked
deriving DecidableEq, Repr

/-- Where the goroutine started at line 107 stands. -/
inductive WorkerPc (α : Type) where
  /-- blocked in the `select` on `respChan` and `errChan` -/
  | selecting
  /-- `case resp := <-respChan`, before `json.Decode` -/
  | decoding (resp : MessageReceiveResponse)
  /-- decoded and logged, before `q.handler(params)` -/
  | dispatching (resp : MessageReceiveResponse) (p : Params α)
  /-- handler returned nil, before `q.DeleteMessage` -/
  | acknowledging (resp : MessageReceiveResponse) (p : Params α)
  /-- `case err := <-errChan`, before the log call -/
  | failed (err : Err)
  /-- blocked on `endChan <- 1` -/
  | sendEnd
  /-- the goroutine function has returned -/
  | exited
  /-- call of a nil handler -/
  | panicked
deriving DecidableEq, Repr

/-- The state of one `ReceiveMessage` invocation: both goroutines, how many
receives the transport has served on this queue, and the events so far. -/
structure State (α H : Type) where
  main : MainPc
  worker : WorkerPc α
  polls : Nat
  trace : List (Event α H)
deriving DecidableEq, Repr

/-- One step of the invocation for queue value `q` (the local `q` of
`ReceiveMessage`).  At most one move is enabled in any state: the three
channels are unbuffered, so a send and its receive happen together.
`none` means nothing can move. -/
def step {α H : Type} (env : Env α H) (q : Queue H) (s : State α H) : Option (State α H) :=
  match s.main, s.worker with
  -- line 164: the receive itself
  | .polling, .selecting =>
    match q.queueInstance with
    | none => some { s with main := .panicked }
    | some inst =>
      let tr := s.trace ++ [Event.receive inst q.WaitSecond]
      match env.poll inst s.polls with
      | .ok resp => some { s with main := .sendResp resp, polls := s.polls + 1, trace := tr }
      | .error err => some { s with main := .sendErr err, polls := s.polls + 1, trace := tr }
  -- rendezvous on respChan / errChan; the SDK call returns, line 165 is reached
  | .sendResp resp, .selecting => some { s with main := .waitEnd, worker := .decoding resp }
  | .sendErr err, .selecting => some { s with main := .waitEnd, worker := .failed err }
  -- lines 111-127
  | .waitEnd, .decoding resp =>
    match env.Decode (env.DecodeBase64 resp.MessageBody) with
    | .error err =>
      some { s with worker := .exited,
                    trace := s.trace ++ [Event.log Level.error "invalidMessageBody" (some err)] }
    | .ok p =>
      some { s with worker := .dispatching resp p,
                    trace := s.trace ++ [Event.log Level.info "receiveMessage" none] }
  -- lines 129-135
  | .waitEnd, .dispatching resp p =>
    match q.handler with
    | none => some { s with worker := .panicked }
    | some h =>
      match env.call h p with
      | some err =>
        some { s with worker := .exited,
                      trace := s.trace ++ [Event.handle h p,
                        Event.log Level.warn "processMessageFailed" (some err)] }
      | none =>
        some { s with worker := .acknowledging resp p, trace := s.trace ++ [Event.handle h p] }
  -- lines 137-145
  | .waitEnd, .acknowledging resp _ =>
    match q.queueInstance with
    | none => some { s with worker := .panicked }
    | some inst =>
      some { s with worker := .sendEnd,
                    trace := s.trace ++ [Event.delete inst resp.ReceiptHandle,
                      Event.log Level.info "deleteMessage" (env.DeleteMessage inst resp.ReceiptHandle)] }
  -- lines 154-157
  | .waitEnd, .failed err =>
    some { s with worker := .sendEnd,
                  trace := s.trace ++ [Event.log Level.info "receiveMessageFailed" (some err)] }
  -- rendezvous on endChan: lines 147 / 158 with line 165
  | .waitEnd, .sendEnd => some { s with main := .returned, worker := .exited }
  | _, _ => none

/-- Runs `step` until nothing can move or the fuel is spent. -/
def exec {α H : Type} (env : Env α H) (q : Queue H) : Nat → State α H → State α H
  | 0, s => s
  | n + 1, s =>
    match step env q s with
    | none => s
    | some s1 => exec env q n s1

/-- The state in which `ReceiveMessage` starts its receive: the worker has been
spawned, the transport has served `polls` receives on this queue before. -/
def State.init (α H : Type) (polls : Nat) : State α H :=
  { main := .polling, worker := .selecting, polls := polls, trace := [] }

/-- Lines 100-103: the local queue value, with the default wait of 30. -/
def localQueue {H : Type} (cli : client H) (queueName : String) : Queue H :=
  let q := cli.GetQueue queueName
  if q.WaitSecond = 0 then { q with WaitSecond := 30 } else q

/-- `ReceiveMessage`: the invocation run from its start; `polls` is the number
of receives the transport has already served on the queue.  Eight steps are
more than the longest run takes (see `ReceiveMessage_stuck`). -/
def client.ReceiveMessage {α H : Type} (env : Env α H) (cli : client H) (queueName : String)
    (polls : Nat) : State α H :=
  exec env (localQueue cli queueName) 8 (State.init α H polls)

/-- The calls `q.DeleteMessage(handle)` of a trace, as (queue, receipt handle). -/
def deletes {α H : Type} : List (Event α H) → List (String × String)
  | [] => []
  | Event.delete q r :: t => (q, r) :: deletes t
  | _ :: t => deletes t

/-- The handler invocations of a trace, as (handler, envelope). -/
def handles {α H : Type} : List (Event α H) → List (H × Params α)
  | [] => []
  | Event.handle h p :: t => (h, p) :: handles t
  | _ :: t => handles t

/-- The long-poll receives of a trace, as (queue, timeout in seconds). -/
def receives {α H : Type} : List (Event α H) → List (String × Int)
  | [] => []
  | Event.receive q w :: t => (q, w) :: receives t
  | _ :: t => receives t

/-- The transport publish calls of a trace, as (topic, request). -/
def publishes {α H : Type} : List (Event α H) → List (String × MessagePublishRequest)
  | [] => []
  | Event.publish q r :: t => (q, r) :: publishes t
  | _ :: t => publishes t

/-- The log records of a trace, as (logger method, event name). -/
def logs {α H : Type} : List (Event α H) → List (Level × String)
  | [] => []
  | Event.log l n _ :: t => (l, n) :: logs t
  | _ :: t => logs t

/-! ## Publishing: `PublishMessage` -/

/-- Modelled from the spec: `strings.Default` is outside the two source files;
the spec says the generated value is assigned when the field is empty. -/
def Default (v d : String) : String :=
  if v = "" then d else v

/-- The collaborators of the publisher that are not in the two source files. -/
structure PubEnv (α : Type) where
  /-- the value `trace.GetTraceId()` returns at this call -/
  GetTraceId : String
  /-- `strings.Md5` -/
  Md5 : String → String
  /-- `json.Encode` of a `Params` -/
  Encode : Params α → Except Err Bytes
  /-- `strings.EncodeBase64` -/
  EncodeBase64 : Bytes → String
  /-- what the SDK call `PublishMessage` on the named topic returns -/
  PublishMessage : String → MessagePublishRequest → Except Err MessageSendResponse

/-- `GenerateSign`: digest of the text followed by the secret. -/
def client.GenerateSign {H : Type} (cli : client H) (md5 : String → String) (str : String) :
    String :=
  md5 (str ++ cli.accessKeySecret)

/-- Lines 170-171: the envelope with trace id and signature filled in. -/
def client.complete {α H : Type} (env : PubEnv α) (cli : client H) (params : Params α) :
    Params α :=
  let params := { params with TraceId := Default params.TraceId env.GetTraceId }
  { params with Sign := Default params.Sign (cli.GenerateSign env.Md5 params.TraceId) }

/-- What a `PublishMessage` call leaves behind: the returned pair
(`.error err` is `(nil, err)`, `.ok resp` is `(&resp, nil)`), the client with
its topic registry, and the events of the call. -/
structure PublishResult (α H : Type) where
  ret : Except Err MessageSendResponse
  cli : client H
  trace : List (Event α H)

/-- `PublishMessage`. -/
def client.PublishMessage {α H : Type} (env : PubEnv α) (cli : client H) (topicName : String)
    (params : Params α) (filterTag : String) : PublishResult α H :=
  let params := client.complete env cli params
  match env.Encode params with
  | .error err => { ret := .error err, cli := cli, trace := [] }
  | .ok bytes =>
    let (cli, topic) := cli.getTopic topicName
    let request : MessagePublishRequest :=
      { MessageBody := env.EncodeBase64 bytes, MessageTag := filterTag }
    match env.PublishMessage topic.Instance request with
    | .error err =>
      { ret := .error err, cli := cli, trace := [Event.publish topic.Instance request] }
    | .ok resp =>
      { ret := .ok resp, cli := cli,
        trace := [Event.publish topic.Instance request,
                  Event.log Level.info "publishMessage" none] }

/-! ## The log channels named by the specification and used by the code -/

/-- The channel the specification assigns to each event: receipt, publish and
deletion are informational, a handler failure is a warning, a decode failure
and a transport (receive) failure are errors. -/
def specLevel (event : String) : Option Level :=
  if event = "receiveMessage" ∨ event = "publishMessage" ∨ event = "deleteMessage" then
    some Level.info
  else if event = "processMessageFailed" then some Level.warn
  else if event = "invalidMessageBody" ∨ event = "receiveMessageFailed" then some Level.error
  else none

/-- The registry invariant that `NewClient` sets up and `AddQueue` keeps: a
queue is stored under its own name. -/
def client.WF {H : Type} (cli : client H) : Prop :=
  ∀ e ∈ cli.queueItems, e.2.Name = e.1

/-! ## The wire encoding: UTF-8, base64 and the JSON object of an envelope -/

/-- Modelled from the spec: the bytes of one character of a Go string, which is
UTF-8 text; `[]byte(s)` and `string(b)` are outside the two source files only
as language conversions, the spec speaks of text. -/
def utf8EncodeChar (c : Char) : Bytes :=
  let n := c.toNat
  if n < 0x80 then [n]
  else if n < 0x800 then [0xC0 + n / 64, 0x80 + n % 64]
  else if n < 0x10000 then [0xE0 + n / 4096, 0x80 + n / 64 % 64, 0x80 + n % 64]
  else [0xF0 + n / 262144, 0x80 + n / 4096 % 64, 0x80 + n / 64 % 64, 0x80 + n % 64]

/-- Modelled from the spec: the bytes of a text. -/
def utf8Encode : List Char → Bytes
  | [] => []
  | c :: s => utf8EncodeChar c ++ utf8Encode s

/-- A continuation byte `10xxxxxx`. -/
def isCont (b : Nat) : Bool :=
  decide (0x80 ≤ b ∧ b < 0xC0)

/-- Modelled from the spec: the text of a byte sequence, `none` when the bytes
are not well-formed UTF-8 (overlong forms, surrogates and values above
U+10FFFF are refused). -/
def utf8Decode : Bytes → Option (List Char)
  | [] => some []
  | b0 :: rest =>
    if b0 < 0x80 then (utf8Decode rest).map (fun s => Char.ofNat b0 :: s)
    else
      match rest with
      | [] => none
      | b1 :: rest1 =>
        if 0xC0 ≤ b0 ∧ b0 < 0xE0 then
          let n := (b0 - 0xC0) * 64 + (b1 - 0x80)
          if isCont b1 ∧ 0x80 ≤ n then (utf8Decode rest1).map (fun s => Char.ofNat n :: s)
          else none
        else
          match rest1 with
          | [] => none
          | b2 :: rest2 =>
            if 0xE0 ≤ b0 ∧ b0 < 0xF0 then
              let n := (b0 - 0xE0) * 4096 + (b1 - 0x80) * 64 + (b2 - 0x80)
              if isCont b1 ∧ isCont b2 ∧ 0x800 ≤ n ∧ n.isValidChar then
                (utf8Decode rest2).map (fun s => Char.ofNat n :: s)
              else none
            else
              match rest2 with
              | [] => none
              | b3 :: rest3 =>
                let n := (b0 - 0xF0) * 262144 + (b1 - 0x80) * 4096 + (b2 - 0x80) * 64
                  + (b3 - 0x80)
                if 0xF0 ≤ b0 ∧ b0 < 0xF8 ∧ isCont b1 ∧ isCont b2 ∧ isCont b3
                    ∧ 0x10000 ≤ n ∧ n.isValidChar then
                  (utf8Decode rest3).map (fun s => Char.ofNat n :: s)
                else none

/-- The base64 digit of a six-bit value: `A`-`Z`, `a`-`z`, `0`-`9`, `+`, `/`. -/
def b64Char (n : Nat) : Char :=
  if n < 26 then Char.ofNat (65 + n)
  else if n < 52 then Char.ofNat (71 + n)
  else if n < 62 then Char.ofNat (n - 4)
  else if n = 62 then '+'
  else '/'

/-- The six-bit value of a base64 digit. -/
def b64Val (c : Char) : Option Nat :=
  let v := c.toNat
  if 65 ≤ v ∧ v ≤ 90 then some (v - 65)
  else if 97 ≤ v ∧ v ≤ 122 then some (v - 71)
  else if 48 ≤ v ∧ v ≤ 57 then some (v + 4)
  else if c = '+' then some 62
  else if c = '/' then some 63
  else none

/-- Modelled from the spec: the binary-to-text transport encoding, standard
base64 with `=` padding, three bytes to four digits. -/
def base64Encode : Bytes → List Char
  | [] => []
  | [a] => [b64Char (a / 4), b64Char (a % 4 * 16), '=', '=']
  | [a, b] => [b64Char (a / 4), b64Char (a % 4 * 16 + b / 16), b64Char (b % 16 * 4), '=']
  | a :: b :: c :: rest =>
    b64Char (a / 4) :: b64Char (a % 4 * 16 + b / 16) :: b64Char (b % 16 * 4 + c / 64)
      :: b64Char (c % 64) :: base64Encode rest

/-- Modelled from the spec: the reverse transform, four digits to three bytes;
`none` on a digit outside the alphabet, a length that is not a multiple of
four, or padding anywhere but at the end. -/
def base64Decode : List Char → Option Bytes
  | [] => some []
  | c0 :: c1 :: c2 :: c3 :: rest =>
    match b64Val c0, b64Val c1 with
    | some s0, some s1 =>
      if c3 = '=' then
        if rest ≠ [] then none
        else if c2 = '=' then some [s0 * 4 + s1 / 16]
        else
          match b64Val c2 with
          | some s2 => some [s0 * 4 + s1 / 16, s1 % 16 * 16 + s2 / 4]
          | none => none
      else
        match b64Val c2, b64Val c3, base64Decode rest with
        | some s2, some s3, some tail =>
          some ((s0 * 4 + s1 / 16) :: (s1 % 16 * 16 + s2 / 4) :: (s2 % 4 * 64 + s3) :: tail)
        | _, _, _ => none
    | _, _ => none
  | _ => none

/-- Modelled from the spec: `strings.EncodeBase64`, outside the two source
files; the spec calls it the binary-to-text transport encoding. -/
def strings.EncodeBase64 (b : Bytes) : String :=
  String.mk (base64Encode b)

/-- Modelled from the spec: `strings.DecodeBase64`, outside the two source
files; it returns no error, a body that is not base64 gives the empty text. -/
def strings.DecodeBase64 (s : String) : Bytes :=
  (base64Decode s.toList).getD []

/-- The quotation mark that delimits a JSON string. -/
def quote : Char := Char.ofNat 34

/-- The escape character of JSON strings, a backslash. -/
def backslash : Char := Char.ofNat 92

/-- The opening brace of a JSON object. -/
def lbrace : Char := Char.ofNat 123

/-- The closing brace of a JSON object. -/
def rbrace : Char := Char.ofNat 125

/-- The hexadecimal digit of a value below 16, in lower case. -/
def hexDigit (n : Nat) : Char :=
  if n < 10 then Char.ofNat (48 + n) else Char.ofNat (87 + n)

/-- The value of a hexadecimal digit of either case. -/
def hexVal (c : Char) : Option Nat :=
  let v := c.toNat
  if 48 ≤ v ∧ v ≤ 57 then some (v - 48)
  else if 97 ≤ v ∧ v ≤ 102 then some (v - 87)
  else if 65 ≤ v ∧ v ≤ 70 then some (v - 55)
  else none

/-- The characters written as a four-digit escape: controls, the three HTML
characters and the two line separators. -/
def needsHexEscape (c : Char) : Bool :=
  decide (c.toNat < 0x20 ∨ c.toNat = 0x3C ∨ c.toNat = 0x3E ∨ c.toNat = 0x26
    ∨ c.toNat = 0x2028 ∨ c.toNat = 0x2029)

/-- The JSON form of one character of a string. -/
def escapeChar (c : Char) : List Char :=
  if c = quote then [backslash, quote]
  else if c = backslash then [backslash, backslash]
  else if c = Char.ofNat 10 then [backslash, 'n']
  else if c = Char.ofNat 13 then [backslash, 'r']
  else if c = Char.ofNat 9 then [backslash, 't']
  else if needsHexEscape c then
    [backslash, 'u', hexDigit (c.toNat / 4096), hexDigit (c.toNat / 256 % 16),
      hexDigit (c.toNat / 16 % 16), hexDigit (c.toNat % 16)]
  else [c]

/-- The JSON form of the characters of a string, without the quotes. -/
def escape : List Char → List Char
  | [] => []
  | c :: s => escapeChar c ++ escape s

/-- A JSON string: the escaped characters between quotes. -/
def encodeString (s : List Char) : List Char :=
  quote :: (escape s ++ [quote])

/-- One object member, a quoted key, a colon and a quoted value. -/
def encodeMember (key val : String) : List Char :=
  encodeString key.toList ++ ':' :: encodeString val.toList

/-- Modelled from the spec: the canonical text of an envelope, a JSON object
with the fields `content`, `tag`, `traceId` and `sign` in that order. -/
def jsonText (p : Params String) : List Char :=
  lbrace :: (encodeMember "content" p.Content ++ ',' :: (encodeMember "tag" p.Tag
    ++ ',' :: (encodeMember "traceId" p.TraceId
    ++ ',' :: (encodeMember "sign" p.Sign ++ [rbrace]))))

/-- The character a single-letter escape stands for. -/
def unescapeChar (e : Char) : Option Char :=
  if e = quote then some quote
  else if e = backslash then some backslash
  else if e = '/' then some '/'
  else if e = 'b' then some (Char.ofNat 8)
  else if e = 'f' then some (Char.ofNat 12)
  else if e = 'n' then some (Char.ofNat 10)
  else if e = 'r' then some (Char.ofNat 13)
  else if e = 't' then some (Char.ofNat 9)
  else none

/-- The character of a four-digit escape; a value that is no character (a lone
surrogate) reads as U+FFFD. -/
def hexEscape (a b c d : Char) : Option Char :=
  match hexVal a, hexVal b, hexVal c, hexVal d with
  | some x, some y, some z, some w =>
    let n := ((x * 16 + y) * 16 + z) * 16 + w
    if n.isValidChar then some (Char.ofNat n) else some (Char.ofNat 0xFFFD)
  | _, _, _, _ => none

/-- Reads a JSON string after its opening quote: the characters up to the
closing quote, unescaped, and the input after that quote. -/
def parseStringBody : List Char → Option (List Char × List Char)
  | [] => none
  | c :: rest =>
    if c = quote then some ([], rest)
    else if c = backslash then
      match rest with
      | [] => none
      | e :: rest1 =>
        if e = 'u' then
          match rest1 with
          | a :: b :: c2 :: d :: rest2 =>
            match hexEscape a b c2 d, parseStringBody rest2 with
            | some ch, some (s, r) => some (ch :: s, r)
            | _, _ => none
          | _ => none
        else
          match unescapeChar e, parseStringBody rest1 with
          | some ch, some (s, r) => some (ch :: s, r)
          | _, _ => none
    else if c.toNat < 0x20 then none
    else
      match parseStringBody rest with
      | some (s, r) => some (c :: s, r)
      | none => none

/-- Drops leading JSON white space. -/
def skipWs : List Char → List Char
  | [] => []
  | c :: rest =>
    if c = ' ' ∨ c = Char.ofNat 9 ∨ c = Char.ofNat 10 ∨ c = Char.ofNat 13 then skipWs rest
    else c :: rest

/-- Reads the given character after optional white space. -/
def expect (c : Char) (input : List Char) : Option (List Char) :=
  match skipWs input with
  | [] => none
  | d :: rest => if d = c then some rest else none

/-- Reads a JSON string after optional white space. -/
def parseQuoted (input : List Char) : Option (List Char × List Char) :=
  match expect quote input with
  | none => none
  | some rest => parseStringBody rest

/-- Stores a decoded member in the envelope; unknown keys are skipped. -/
def setField (p : Params String) (key val : List Char) : Params String :=
  if key = "content".toList then { p with Content := String.mk val }
  else if key = "tag".toList then { p with Tag := String.mk val }
  else if key = "traceId".toList then { p with TraceId := String.mk val }
  else if key = "sign".toList then { p with Sign := String.mk val }
  else p

/-- Reads the members of an object up to and including its closing brace; the
fuel bounds the number of members. -/
def parseMembers : Nat → List Char → Params String → Option (Params String × List Char)
  | 0, _, _ => none
  | fuel + 1, input, p =>
    match parseQuoted input with
    | none => none
    | some (key, rest1) =>
      match expect ':' rest1 with
      | none => none
      | some rest2 =>
        match parseQuoted rest2 with
        | none => none
        | some (val, rest3) =>
          match skipWs rest3 with
          | [] => none
          | sep :: rest4 =>
            if sep = ',' then parseMembers fuel rest4 (setField p key val)
            else if sep = rbrace then some (setField p key val, rest4)
            else none

/-- The envelope with every field empty, the value decoding starts from. -/
def Params.zero : Params String :=
  { Content := "", Tag := "", TraceId := "", Sign := "" }

/-- Modelled from the spec: structural deserialisation of the canonical text:
an object whose members are strings, in any order, white space allowed between
tokens, nothing after the closing brace. -/
def parseObject (input : List Char) : Option (Params String) :=
  match expect lbrace input with
  | none => none
  | some rest =>
    match expect rbrace rest with
    | some rest1 => if skipWs rest1 = [] then some Params.zero else none
    | none =>
      match parseMembers input.length rest Params.zero with
      | none => none
      | some (p, rest1) => if skipWs rest1 = [] then some p else none

/-- Modelled from the spec: `json.Encode` of an envelope with text content,
outside the two source files: the bytes of the canonical text. -/
def json.Encode (p : Params String) : Except Err Bytes :=
  .ok (utf8Encode (jsonText p))

/-- Modelled from the spec: `json.Decode` into an envelope with text content,
outside the two source files. -/
def json.Decode (b : Bytes) : Except Err (Params String) :=
  match utf8Decode b with
  | none => .error "invalid UTF-8"
  | some text =>
    match parseObject text with
    | none => .error "invalid JSON envelope"
    | some p => .ok p

/-- The publisher's collaborators with the wire encoding in place of the two
encoders of `base`. -/
def wirePub (base : PubEnv String) : PubEnv String :=
  { base with Encode := json.Encode, EncodeBase64 := strings.EncodeBase64 }

/-- The consumer's collaborators with the wire encoding in place of the two
decoders of `base`. -/
def wireEnv {H : Type} (base : Env String H) : Env String H :=
  { base with DecodeBase64 := strings.DecodeBase64, Decode := json.Decode }

/-! ## Sample collaborators -/

/-- A transport that delivers two messages in succession and then reports an
empty queue; a body is read as its character codes, `"b"` decodes to an
envelope;
handler `1` succeeds and every other handler fails. -/
def sampleEnv : Env String Nat :=
  { poll := fun _ k =>
      if k < 2 then .ok { MessageBody := "b", ReceiptHandle := "r" }
      else .error "MessageNotExist",
    DecodeBase64 := fun s => s.toList.map Char.toNat,
    Decode := fun b =>
      if b = [98] then .ok { Content := "x", Tag := "t1", TraceId := "", Sign := "" }
      else .error "bad",
    call := fun h _ => if h = 1 then none else some "boom",
    DeleteMessage := fun _ _ => none }

/-- The same transport with bodies that do not decode. -/
def garbledEnv : Env String Nat :=
  { sampleEnv with Decode := fun _ => .error "bad" }

/-- A client with queue `"orders"` bound to handler `1`, wait 5 seconds. -/
def sampleClient : client Nat :=
  (NewClient Nat "secret").AddQueue "orders" (some 1) 5

/-- The same queue bound to the failing handler `2`, wait unset. -/
def failingClient : client Nat :=
  (NewClient Nat "secret").AddQueue "orders" (some 2) 0

/-- A publisher environment whose transport accepts everything. -/
def samplePub : PubEnv String :=
  { GetTraceId := "trace-1",
    Md5 := fun s => "md5:" ++ s,
    Encode := fun p =>
      .ok ((p.Content ++ "|" ++ p.Tag ++ "|" ++ p.TraceId ++ "|" ++ p.Sign).toList.map Char.toNat),
    EncodeBase64 := fun b => "b64:" ++ String.mk (b.map Char.ofNat),
    PublishMessage := fun _ _ => .ok { MessageId := "m1", Code := 201 } }

/-- A publisher environment whose transport refuses everything. -/
def refusingPub : PubEnv String :=
  { samplePub with PublishMessage := fun _ _ => .error "denied" }

/-! ## Runs of `ReceiveMessage`, path by path -/

section Paths

variable {α H : Type}

theorem localQueue_queueInstance (cli : client H) (name : String) :
    (localQueue cli name).queueInstance = (cli.GetQueue name).queueInstance := by
  simp only [localQueue]
  split <;> rfl

theorem localQueue_handler (cli : client H) (name : String) :
    (localQueue cli name).handler = (cli.GetQueue name).handler := by
  simp only [localQueue]
  split <;> rfl

theorem localQueue_WaitSecond (cli : client H) (name : String) :
    (localQueue cli name).WaitSecond
      = if (cli.GetQueue name).WaitSecond = 0 then 30 else (cli.GetQueue name).WaitSecond := by
  simp only [localQueue]
  split <;> simp_all

/-- A state in which nothing can move stays as it is under any fuel. -/
theorem exec_of_step_none (env : Env α H) (q : Queue H) (s : State α H)
    (h : step env q s = none) (n : Nat) : exec env q n s = s := by
  cases n with
  | zero => rfl
  | succ n => simp [exec, h]

/-- Fuel adds up. -/
theorem exec_add (env : Env α H) (q : Queue H) (m n : Nat) (s : State α H) :
    exec env q (m + n) s = exec env q n (exec env q m s) := by
  induction m generalizing s with
  | zero => simp [exec]
  | succ m ih =>
    rw [Nat.add_right_comm]
    simp only [exec]
    cases hs : step env q s with
    | none => simp [exec_of_step_none env q s hs]
    | some s1 => simpa using ih s1

/-- No SDK handle: the receive call panics before anything happens. -/
theorem run_nilInstance (env : Env α H) (q : Queue H) (k : Nat)
    (hq : q.queueInstance = none) :
    exec env q 8 (State.init α H k)
      = { main := .panicked, worker := .selecting, polls := k, trace := [] } := by
  simp [exec, step, State.init, hq]

/-- Transport error: logged, completion signalled, the call returns. -/
theorem run_pollError (env : Env α H) (q : Queue H) (k : Nat) (inst : String) (err : Err)
    (hq : q.queueInstance = some inst) (hp : env.poll inst k = .error err) :
    exec env q 8 (State.init α H k)
      = { main := .returned, worker := .exited, polls := k + 1,
          trace := [Event.receive inst q.WaitSecond,
                    Event.log Level.info "receiveMessageFailed" (some err)] } := by
  simp [exec, step, State.init, hq, hp]

/-- Undecodable body: logged, the worker ends, the caller stays on `endChan`. -/
theorem run_decodeError (env : Env α H) (q : Queue H) (k : Nat) (inst : String)
    (resp : MessageReceiveResponse) (err : Err)
    (hq : q.queueInstance = some inst) (hp : env.poll inst k = .ok resp)
    (hd : env.Decode (env.DecodeBase64 resp.MessageBody) = .error err) :
    exec env q 8 (State.init α H k)
      = { main := .waitEnd, worker := .exited, polls := k + 1,
          trace := [Event.receive inst q.WaitSecond,
                    Event.log Level.error "invalidMessageBody" (some err)] } := by
  simp [exec, step, State.init, hq, hp, hd]

/-- Decoded body, nil handler: the worker panics on the call. -/
theorem run_nilHandler (env : Env α H) (q : Queue H) (k : Nat) (inst : String)
    (resp : MessageReceiveResponse) (p : Params α)
    (hq : q.queueInstance = some inst) (hp : env.poll inst k = .ok resp)
    (hd : env.Decode (env.DecodeBase64 resp.MessageBody) = .ok p)
    (hh : q.handler = none) :
    exec env q 8 (State.init α H k)
      = { main := .waitEnd, worker := .panicked, polls := k + 1,
          trace := [Event.receive inst q.WaitSecond,
                    Event.log Level.info "receiveMessage" none] } := by
  simp [exec, step, State.init, hq, hp, hd, hh]

/-- Handler error: warned, no delete, the caller stays on `endChan`. -/
theorem run_handlerError (env : Env α H) (q : Queue H) (k : Nat) (inst : String)
    (resp : MessageReceiveResponse) (p : Params α) (h : H) (err : Err)
    (hq : q.queueInstance = some inst) (hp : env.poll inst k = .ok resp)
    (hd : env.Decode (env.DecodeBase64 resp.MessageBody) = .ok p)
    (hh : q.handler = some h) (hc : env.call h p = some err) :
    exec env q 8 (State.init α H k)
      = { main := .waitEnd, worker := .exited, polls := k + 1,
          trace := [Event.receive inst q.WaitSecond,
                    Event.log Level.info "receiveMessage" none,
                    Event.handle h p,
                    Event.log Level.warn "processMessageFailed" (some err)] } := by
  simp [exec, step, State.init, hq, hp, hd, hh, hc]

/-- Handler success: delete, log, completion signalled, the call returns. -/
theorem run_handlerOk (env : Env α H) (q : Queue H) (k : Nat) (inst : String)
    (resp : MessageReceiveResponse) (p : Params α) (h : H)
    (hq : q.queueInstance = some inst) (hp : env.poll inst k = .ok resp)
    (hd : env.Decode (env.DecodeBase64 resp.MessageBody) = .ok p)
    (hh : q.handler = some h) (hc : env.call h p = none) :
    exec env q 8 (State.init α H k)
      = { main := .returned, worker := .exited, polls := k + 1,
          trace := [Event.receive inst q.WaitSecond,
                    Event.log Level.info "receiveMessage" none,
                    Event.handle h p,
                    Event.delete inst resp.ReceiptHandle,
                    Event.log Level.info "deleteMessage"
                      (env.DeleteMessage inst resp.ReceiptHandle)] } := by
  simp [exec, step, State.init, hq, hp, hd, hh, hc]

/-- After the eight steps no move is left, whatever the collaborators do. -/
theorem run_stuck (env : Env α H) (q : Queue H) (k : Nat) :
    step env q (exec env q 8 (State.init α H k)) = none := by
  cases hq : q.queueInstance with
  | none => rw [run_nilInstance env q k hq]; simp [step]
  | some inst =>
    cases hp : env.poll inst k with
    | error err => rw [run_pollError env q k inst err hq hp]; simp [step]
    | ok resp =>
      cases hd : env.Decode (env.DecodeBase64 resp.MessageBody) with
      | error err => rw [run_decodeError env q k inst resp err hq hp hd]; simp [step]
      | ok p =>
        cases hh : q.handler with
        | none => rw [run_nilHandler env q k inst resp p hq hp hd hh]; simp [step]
        | some h =>
          cases hc : env.call h p with
          | some err =>
            rw [run_handlerError env q k inst resp p h err hq hp hd hh hc]; simp [step]
          | none => rw [run_handlerOk env q k inst resp p h hq hp hd hh hc]; simp [step]

/-- The eight steps of `ReceiveMessage` are a whole run: no move is left. -/
theorem ReceiveMessage_stuck (env : Env α H) (cli : client H) (name : String) (k : Nat) :
    step env (localQueue cli name) (cli.ReceiveMessage env name k) = none := by
  exact run_stuck env _ k

/-- More fuel changes nothing: the run is over after eight steps. -/
theorem exec_ge_eight (env : Env α H) (q : Queue H) (k n : Nat) :
    exec env q (8 + n) (State.init α H k) = exec env q 8 (State.init α H k) := by
  rw [exec_add]
  exact exec_of_step_none env q _ (run_stuck env q k) n

end Paths

/-! ## Consumption claims -/

section Consumption

variable {α H : Type}

/-- A state in which the caller has returned cannot move. -/
theorem step_returned (env : Env α H) (q : Queue H) (s : State α H)
    (h : s.main = .returned) : step env q s = none := by
  unfold step
  rw [h]

/-- A run that has returned at some fuel has returned after the eight steps. -/
theorem returned_at_eight (env : Env α H) (q : Queue H) (k n : Nat)
    (h : (exec env q n (State.init α H k)).main = .returned) :
    (exec env q 8 (State.init α H k)).main = .returned := by
  rcases Nat.lt_or_ge n 8 with hn | hn
  · have h8 : 8 = n + (8 - n) := by omega
    rw [h8, exec_add, exec_of_step_none env q _ (step_returned env q _ h)]
    exact h
  · obtain ⟨m, rfl⟩ : ∃ m, n = 8 + m := ⟨n - 8, by omega⟩
    rwa [exec_ge_eight] at h

/-- The receive counter never goes down in a step, and goes up by at most one
and only from the polling state. -/
theorem step_polls (env : Env α H) (q : Queue H) (s s1 : State α H)
    (h : step env q s = some s1) :
    s1.polls = s.polls ∨ (s.main = .polling ∧ s1.main ≠ .polling ∧ s1.polls = s.polls + 1) := by
  unfold step at h
  split at h
  all_goals try split at h
  all_goals try split at h
  all_goals first
    | (cases h; done)
    | (cases h; simp_all)

/-- The receive counter never goes down along a run. -/
theorem exec_polls_mono (env : Env α H) (q : Queue H) (n : Nat) (s : State α H) :
    s.polls ≤ (exec env q n s).polls := by
  induction n generalizing s with
  | zero => simp [exec]
  | succ n ih =>
    simp only [exec]
    cases hs : step env q s with
    | none => simp
    | some s1 =>
      have h1 := step_polls env q s s1 hs
      have h2 := ih s1
      simp only
      omega

/-- Case analysis on a whole run: a property holds of the final state as soon
as it holds of the final state of each of the six paths. -/
theorem run_cases (env : Env α H) (q : Queue H) (k : Nat) (P : State α H → Prop)
    (h1 : q.queueInstance = none →
      P { main := .panicked, worker := .selecting, polls := k, trace := [] })
    (h2 : ∀ inst err, q.queueInstance = some inst → env.poll inst k = .error err →
      P { main := .returned, worker := .exited, polls := k + 1,
          trace := [Event.receive inst q.WaitSecond,
                    Event.log Level.info "receiveMessageFailed" (some err)] })
    (h3 : ∀ inst resp err, q.queueInstance = some inst → env.poll inst k = .ok resp →
      env.Decode (env.DecodeBase64 resp.MessageBody) = .error err →
      P { main := .waitEnd, worker := .exited, polls := k + 1,
          trace := [Event.receive inst q.WaitSecond,
                    Event.log Level.error "invalidMessageBody" (some err)] })
    (h4 : ∀ inst resp p, q.queueInstance = some inst → env.poll inst k = .ok resp →
      env.Decode (env.DecodeBase64 resp.MessageBody) = .ok p → q.handler = none →
      P { main := .waitEnd, worker := .panicked, polls := k + 1,
          trace := [Event.receive inst q.WaitSecond,
                    Event.log Level.info "receiveMessage" none] })
    (h5 : ∀ inst resp p h err, q.queueInstance = some inst → env.poll inst k = .ok resp →
      env.Decode (env.DecodeBase64 resp.MessageBody) = .ok p → q.handler = some h →
      env.call h p = some err →
      P { main := .waitEnd, worker := .exited, polls := k + 1,
          trace := [Event.receive inst q.WaitSecond,
                    Event.log Level.info "receiveMessage" none,
                    Event.handle h p,
                    Event.log Level.warn "processMessageFailed" (some err)] })
    (h6 : ∀ inst resp p h, q.queueInstance = some inst → env.poll inst k = .ok resp →
      env.Decode (env.DecodeBase64 resp.MessageBody) = .ok p → q.handler = some h →
      env.call h p = none →
      P { main := .returned, worker := .exited, polls := k + 1,
          trace := [Event.receive inst q.WaitSecond,
                    Event.log Level.info "receiveMessage" none,
                    Event.handle h p,
                    Event.delete inst resp.ReceiptHandle,
                    Event.log Level.info "deleteMessage"
                      (env.DeleteMessage inst resp.ReceiptHandle)] }) :
    P (exec env q 8 (State.init α H k)) := by
  cases hq : q.queueInstance with
  | none => rw [run_nilInstance env q k hq]; exact h1 hq
  | some inst =>
    cases hp : env.poll inst k with
    | error err => rw [run_pollError env q k inst err hq hp]; exact h2 inst err hq hp
    | ok resp =>
      cases hd : env.Decode (env.DecodeBase64 resp.MessageBody) with
      | error err =>
        rw [run_decodeError env q k inst resp err hq hp hd]; exact h3 inst resp err hq hp hd
      | ok p =>
        cases hh : q.handler with
        | none =>
          rw [run_nilHandler env q k inst resp p hq hp hd hh]; exact h4 inst resp p hq hp hd hh
        | some h =>
          cases hc : env.call h p with
          | some err =>
            rw [run_handlerError env q k inst resp p h err hq hp hd hh hc]
            exact h5 inst resp p h err hq hp hd hh hc
          | none =>
            rw [run_handlerOk env q k inst resp p h hq hp hd hh hc]
            exact h6 inst resp p h hq hp hd hh hc

/-- C1: for a queue with a handler and a received message whose body decodes,
`ReceiveMessage` calls delete exactly once, on that queue and with the receipt
handle of that receive response, when the handler returns nil, and calls it
zero times when the handler returns an error. -/
theorem receive_deletes_iff_handler_ok (env : Env α H) (cli : client H) (name : String)
    (k : Nat) (inst : String) (h : H) (resp : MessageReceiveResponse) (p : Params α)
    (hq : (cli.GetQueue name).queueInstance = some inst)
    (hh : (cli.GetQueue name).handler = some h)
    (hp : env.poll inst k = .ok resp)
    (hd : env.Decode (env.DecodeBase64 resp.MessageBody) = .ok p) :
    handles (cli.ReceiveMessage env name k).trace = [(h, p)] ∧
    (env.call h p = none →
      deletes (cli.ReceiveMessage env name k).trace = [(inst, resp.ReceiptHandle)]) ∧
    (∀ err, env.call h p = some err → deletes (cli.ReceiveMessage env name k).trace = []) := by
  have hq1 := (localQueue_queueInstance cli name).trans hq
  have hh1 := (localQueue_handler cli name).trans hh
  unfold client.ReceiveMessage
  cases hc : env.call h p with
  | none =>
    rw [run_handlerOk env _ k inst resp p h hq1 hp hd hh1 hc]
    simp [handles, deletes]
  | some err =>
    rw [run_handlerError env _ k inst resp p h err hq1 hp hd hh1 hc]
    simp [handles, deletes]

/-- Witness of C1: the sample queue, whose handler succeeds, deletes once. -/
theorem receive_deletes_iff_handler_ok_witness :
    deletes (sampleClient.ReceiveMessage sampleEnv "orders" 0).trace = [("orders", "r")] :=
  (receive_deletes_iff_handler_ok sampleEnv sampleClient "orders" 0 "orders" 1
    { MessageBody := "b", ReceiptHandle := "r" }
    { Content := "x", Tag := "t1", TraceId := "", Sign := "" }
    (by decide) (by decide) rfl rfl).2.1 rfl

/-- C2: when the body of the received message does not decode, `ReceiveMessage`
neither invokes the handler nor calls delete. -/
theorem receive_undecodable_untouched (env : Env α H) (cli : client H) (name : String)
    (k : Nat) (inst : String) (resp : MessageReceiveResponse) (err : Err)
    (hq : (cli.GetQueue name).queueInstance = some inst)
    (hp : env.poll inst k = .ok resp)
    (hd : env.Decode (env.DecodeBase64 resp.MessageBody) = .error err) :
    handles (cli.ReceiveMessage env name k).trace = [] ∧
    deletes (cli.ReceiveMessage env name k).trace = [] := by
  have hq1 := (localQueue_queueInstance cli name).trans hq
  unfold client.ReceiveMessage
  rw [run_decodeError env _ k inst resp err hq1 hp hd]
  simp [handles, deletes]

/-- Witness of C2: a garbled body on the sample queue. -/
theorem receive_undecodable_untouched_witness :
    handles (sampleClient.ReceiveMessage garbledEnv "orders" 0).trace = [] ∧
    deletes (sampleClient.ReceiveMessage garbledEnv "orders" 0).trace = [] :=
  receive_undecodable_untouched garbledEnv sampleClient "orders" 0 "orders"
    { MessageBody := "b", ReceiptHandle := "r" } "bad" (by decide) rfl rfl

/-- C8: the long-poll receive that `ReceiveMessage` issues for a registered
queue uses the registered wait seconds when they are not zero, and 30 when the
registered value is 0; it is the only receive of the invocation. -/
theorem receive_timeout (env : Env α H) (cli : client H) (name : String) (k : Nat)
    (inst : String) (hq : (cli.GetQueue name).queueInstance = some inst) :
    receives (cli.ReceiveMessage env name k).trace
      = [(inst, if (cli.GetQueue name).WaitSecond = 0 then 30
                else (cli.GetQueue name).WaitSecond)] := by
  have hq1 := (localQueue_queueInstance cli name).trans hq
  unfold client.ReceiveMessage
  rw [← localQueue_WaitSecond]
  apply run_cases env (localQueue cli name) k
    (fun s => receives s.trace = [(inst, (localQueue cli name).WaitSecond)])
  · intro h; rw [hq1] at h; cases h
  all_goals
    intros
    simp_all [receives]

/-- Witness of C8: wait 5 is used as registered, wait 0 becomes 30. -/
theorem receive_timeout_witness :
    receives (sampleClient.ReceiveMessage sampleEnv "orders" 0).trace = [("orders", 5)] ∧
    receives (failingClient.ReceiveMessage sampleEnv "orders" 0).trace = [("orders", 30)] :=
  ⟨receive_timeout sampleEnv sampleClient "orders" 0 "orders" (by decide),
   receive_timeout sampleEnv failingClient "orders" 0 "orders" (by decide)⟩

/-- C10: `ReceiveMessage` returns to its caller (at some step of the run,
equivalently within its eight steps) exactly when its single receive yields a
transport error or the handler of the decoded message returns nil; when the
body does not decode or the handler returns an error, the worker has ended
without signalling, the caller sits on `endChan`, no move is left and the call
never returns. -/
theorem receive_returns_iff (env : Env α H) (cli : client H) (name : String) (k : Nat) :
    ((∃ n, (exec env (localQueue cli name) n (State.init α H k)).main = .returned) ↔
      (cli.ReceiveMessage env name k).main = .returned) ∧
    ((cli.ReceiveMessage env name k).main = .returned ↔
      ∃ inst, (cli.GetQueue name).queueInstance = some inst ∧
        ((∃ err, env.poll inst k = .error err) ∨
         (∃ resp p h, env.poll inst k = .ok resp ∧
            env.Decode (env.DecodeBase64 resp.MessageBody) = .ok p ∧
            (cli.GetQueue name).handler = some h ∧ env.call h p = none))) ∧
    (∀ inst resp, (cli.GetQueue name).queueInstance = some inst →
      env.poll inst k = .ok resp →
      ((∃ err, env.Decode (env.DecodeBase64 resp.MessageBody) = .error err) ∨
       (∃ p h err, env.Decode (env.DecodeBase64 resp.MessageBody) = .ok p ∧
          (cli.GetQueue name).handler = some h ∧ env.call h p = some err)) →
      (cli.ReceiveMessage env name k).main = .waitEnd ∧
      (cli.ReceiveMessage env name k).worker = .exited ∧
      step env (localQueue cli name) (cli.ReceiveMessage env name k) = none ∧
      ∀ n, (exec env (localQueue cli name) n (State.init α H k)).main ≠ .returned) := by
  have key : (cli.ReceiveMessage env name k).main = .returned ↔
      ∃ inst, (cli.GetQueue name).queueInstance = some inst ∧
        ((∃ err, env.poll inst k = .error err) ∨
         (∃ resp p h, env.poll inst k = .ok resp ∧
            env.Decode (env.DecodeBase64 resp.MessageBody) = .ok p ∧
            (cli.GetQueue name).handler = some h ∧ env.call h p = none)) := by
    rw [← localQueue_queueInstance, ← localQueue_handler]
    unfold client.ReceiveMessage
    apply run_cases env (localQueue cli name) k (fun s => s.main = .returned ↔ _)
    all_goals
      intros
      simp_all
  refine ⟨⟨fun ⟨n, hn⟩ => returned_at_eight env _ k n hn, fun h => ⟨8, h⟩⟩, key, ?_⟩
  intro inst resp hq hp hblock
  have hnot : (cli.ReceiveMessage env name k).main ≠ .returned := by
    rw [Ne, key, hq]
    rcases hblock with ⟨err, hd⟩ | ⟨p, h, err, hd, hh, hc⟩
    · simp [hp, hd]
    · simp [hp, hd, hh, hc]
  have hq1 := (localQueue_queueInstance cli name).trans hq
  refine ⟨?_, ?_, ReceiveMessage_stuck env cli name k,
    fun n hn => hnot (returned_at_eight env _ k n hn)⟩
  · unfold client.ReceiveMessage
    rcases hblock with ⟨err, hd⟩ | ⟨p, h, err, hd, hh, hc⟩
    · rw [run_decodeError env _ k inst resp err hq1 hp hd]
    · rw [run_handlerError env _ k inst resp p h err hq1 hp hd
        ((localQueue_handler cli name).trans hh) hc]
  · unfold client.ReceiveMessage
    rcases hblock with ⟨err, hd⟩ | ⟨p, h, err, hd, hh, hc⟩
    · rw [run_decodeError env _ k inst resp err hq1 hp hd]
    · rw [run_handlerError env _ k inst resp p h err hq1 hp hd
        ((localQueue_handler cli name).trans hh) hc]

/-- Witness of C10: the failing handler leaves the caller blocked for good. -/
theorem receive_returns_iff_witness :
    (failingClient.ReceiveMessage sampleEnv "orders" 0).main = .waitEnd ∧
    (failingClient.ReceiveMessage sampleEnv "orders" 0).worker = .exited ∧
    step sampleEnv (localQueue failingClient "orders")
      (failingClient.ReceiveMessage sampleEnv "orders" 0) = none ∧
    ∀ n, (exec sampleEnv (localQueue failingClient "orders") n
            (State.init String Nat 0)).main ≠ .returned :=
  (receive_returns_iff sampleEnv failingClient "orders" 0).2.2 "orders"
    { MessageBody := "b", ReceiptHandle := "r" } (by decide) rfl
    (Or.inr ⟨{ Content := "x", Tag := "t1", TraceId := "", Sign := "" }, 2, "boom",
      rfl, by decide, rfl⟩)

/-- C3, as the code has it: one invocation of `ReceiveMessage` issues one
long-poll receive on a registered queue (none on an unregistered one) and then
stops moving, whatever the outcome: the transport has served exactly one more
receive at the end of the run and never more at any step of it. -/
theorem receive_is_single_shot (env : Env α H) (cli : client H) (name : String) (k : Nat) :
    step env (localQueue cli name) (cli.ReceiveMessage env name k) = none ∧
    (receives (cli.ReceiveMessage env name k).trace).length ≤ 1 ∧
    (∀ n, (exec env (localQueue cli name) n (State.init α H k)).polls ≤ k + 1) ∧
    (∀ inst, (cli.GetQueue name).queueInstance = some inst →
      (receives (cli.ReceiveMessage env name k).trace).length = 1 ∧
      (cli.ReceiveMessage env name k).polls = k + 1) := by
  have hfin : (cli.ReceiveMessage env name k).polls ≤ k + 1 := by
    unfold client.ReceiveMessage
    apply run_cases env (localQueue cli name) k (fun s => s.polls ≤ k + 1)
    all_goals
      intros
      simp
  refine ⟨ReceiveMessage_stuck env cli name k, ?_, ?_, ?_⟩
  · unfold client.ReceiveMessage
    apply run_cases env (localQueue cli name) k (fun s => (receives s.trace).length ≤ 1)
    all_goals
      intros
      simp [receives]
  · intro n
    rcases Nat.lt_or_ge n 8 with hn | hn
    · have h8 : 8 = n + (8 - n) := by omega
      have hmono := exec_polls_mono env (localQueue cli name) (8 - n)
        (exec env (localQueue cli name) n (State.init α H k))
      rw [← exec_add, ← h8] at hmono
      exact le_trans hmono hfin
    · obtain ⟨m, rfl⟩ : ∃ m, n = 8 + m := ⟨n - 8, by omega⟩
      rw [exec_ge_eight]
      exact hfin
  · intro inst hq
    have hq1 := (localQueue_queueInstance cli name).trans hq
    unfold client.ReceiveMessage
    apply run_cases env (localQueue cli name) k
      (fun s => (receives s.trace).length = 1 ∧ s.polls = k + 1)
    · intro h; rw [hq1] at h; cases h
    all_goals
      intros
      simp [receives]

/-- Counterexample to C3: the sample transport delivers two messages in
succession; the invocation receives the first, handles and deletes it, returns,
and has no move left, with one receive served and the second message never
asked for. -/
theorem receive_not_looping :
    (∀ i, i < 2 → sampleEnv.poll "orders" i
        = .ok { MessageBody := "b", ReceiptHandle := "r" }) ∧
    (sampleClient.ReceiveMessage sampleEnv "orders" 0).main = .returned ∧
    (sampleClient.ReceiveMessage sampleEnv "orders" 0).polls = 1 ∧
    receives (sampleClient.ReceiveMessage sampleEnv "orders" 0).trace = [("orders", 5)] ∧
    step sampleEnv (localQueue sampleClient "orders")
      (sampleClient.ReceiveMessage sampleEnv "orders" 0) = none := by
  refine ⟨?_, by decide, by decide, by decide, by decide⟩
  intro i hi
  simp [sampleEnv, hi]

end Consumption

/-! ## Publishing claims -/

section Publishing

variable {α H : Type}

/-- Serialisation fails: the error comes back, nothing is sent or logged. -/
theorem publish_encodeError (env : PubEnv α) (cli : client H) (topicName : String)
    (params : Params α) (filterTag : String) (err : Err)
    (he : env.Encode (cli.complete env params) = .error err) :
    cli.PublishMessage env topicName params filterTag
      = { ret := .error err, cli := cli, trace := [] } := by
  simp [client.PublishMessage, he]

/-- Serialised, transport refuses: one publish call, the error comes back. -/
theorem publish_transportError (env : PubEnv α) (cli : client H) (topicName : String)
    (params : Params α) (filterTag : String) (bytes : Bytes) (err : Err)
    (he : env.Encode (cli.complete env params) = .ok bytes)
    (hp : env.PublishMessage (cli.getTopic topicName).2.Instance
            { MessageBody := env.EncodeBase64 bytes, MessageTag := filterTag } = .error err) :
    cli.PublishMessage env topicName params filterTag
      = { ret := .error err, cli := (cli.getTopic topicName).1,
          trace := [Event.publish (cli.getTopic topicName).2.Instance
                      { MessageBody := env.EncodeBase64 bytes, MessageTag := filterTag }] } := by
  simp [client.PublishMessage, he, hp]

/-- Serialised, transport accepts: one publish call, one log record, the
transport's response comes back. -/
theorem publish_ok (env : PubEnv α) (cli : client H) (topicName : String)
    (params : Params α) (filterTag : String) (bytes : Bytes) (resp : MessageSendResponse)
    (he : env.Encode (cli.complete env params) = .ok bytes)
    (hp : env.PublishMessage (cli.getTopic topicName).2.Instance
            { MessageBody := env.EncodeBase64 bytes, MessageTag := filterTag } = .ok resp) :
    cli.PublishMessage env topicName params filterTag
      = { ret := .ok resp, cli := (cli.getTopic topicName).1,
          trace := [Event.publish (cli.getTopic topicName).2.Instance
                      { MessageBody := env.EncodeBase64 bytes, MessageTag := filterTag },
                    Event.log Level.info "publishMessage" none] } := by
  simp [client.PublishMessage, he, hp]

/-- C4: for an envelope with empty trace id and empty sign whose content
serialises, given a non-empty fresh trace id and a digest that is never empty,
`PublishMessage` makes one transport publish call whose body is the base64
encoding of the JSON encoding of an envelope with the fresh, non-empty trace
id, a non-empty sign equal to `GenerateSign` of that trace id, which is the
digest of the trace id followed by the secret, and the content and tag of the
input; the message tag of the request is `filterTag`. -/
theorem publish_signs_envelope (env : PubEnv α) (cli : client H) (topicName : String)
    (params : Params α) (filterTag : String)
    (ht : params.TraceId = "") (hs : params.Sign = "")
    (hfresh : env.GetTraceId ≠ "") (hmd5 : ∀ s, env.Md5 s ≠ "")
    (henc : ∀ e : Params α, e.Content = params.Content → ∃ bytes, env.Encode e = .ok bytes) :
    ∃ (e : Params α) (bytes : Bytes),
      e.TraceId = env.GetTraceId ∧ e.TraceId ≠ "" ∧ e.Sign ≠ "" ∧
      e.Sign = cli.GenerateSign env.Md5 e.TraceId ∧
      cli.GenerateSign env.Md5 e.TraceId = env.Md5 (e.TraceId ++ cli.accessKeySecret) ∧
      e.Content = params.Content ∧ e.Tag = params.Tag ∧
      env.Encode e = .ok bytes ∧
      (publishes (cli.PublishMessage env topicName params filterTag).trace).map Prod.snd
        = [{ MessageBody := env.EncodeBase64 bytes, MessageTag := filterTag }] := by
  have hT : (cli.complete env params).TraceId = env.GetTraceId := by
    simp [client.complete, Default, ht]
  have hS : (cli.complete env params).Sign
      = cli.GenerateSign env.Md5 (cli.complete env params).TraceId := by
    simp [client.complete, Default, ht, hs]
  have hC : (cli.complete env params).Content = params.Content := rfl
  obtain ⟨bytes, he⟩ := henc (cli.complete env params) hC
  refine ⟨cli.complete env params, bytes, hT, by rw [hT]; exact hfresh, ?_, hS, rfl, hC, rfl,
    he, ?_⟩
  · rw [hS]
    exact hmd5 _
  · cases hp : env.PublishMessage (cli.getTopic topicName).2.Instance
        { MessageBody := env.EncodeBase64 bytes, MessageTag := filterTag } with
    | error err =>
      rw [publish_transportError env cli topicName params filterTag bytes err he hp]
      simp [publishes]
    | ok resp =>
      rw [publish_ok env cli topicName params filterTag bytes resp he hp]
      simp [publishes]

/-- Witness of C4: publishing `hi` to `alerts` with tag `urgent`. -/
theorem publish_signs_envelope_witness :
    ∃ (e : Params String) (bytes : Bytes),
      e.TraceId = "trace-1" ∧ e.TraceId ≠ "" ∧ e.Sign ≠ "" ∧
      e.Sign = sampleClient.GenerateSign samplePub.Md5 e.TraceId ∧
      sampleClient.GenerateSign samplePub.Md5 e.TraceId
        = samplePub.Md5 (e.TraceId ++ sampleClient.accessKeySecret) ∧
      e.Content = "hi" ∧ e.Tag = "" ∧
      samplePub.Encode e = .ok bytes ∧
      (publishes (α := String) (H := Nat) (sampleClient.PublishMessage samplePub "alerts"
          { Content := "hi", Tag := "", TraceId := "", Sign := "" } "urgent").trace).map Prod.snd
        = [{ MessageBody := samplePub.EncodeBase64 bytes, MessageTag := "urgent" }] :=
  publish_signs_envelope samplePub sampleClient "alerts"
    { Content := "hi", Tag := "", TraceId := "", Sign := "" } "urgent" rfl rfl
    (by decide)
    (fun s h => by
      have hl := congrArg String.length h
      simp [samplePub, String.length_append] at hl
      exact absurd hl.1 (by decide))
    (fun e _ => ⟨_, rfl⟩)

/-- C6: `PublishMessage` hands publish-path errors back unchanged and never
retries: a serialisation error is returned with no transport publish call; a
transport error is returned after exactly one publish call; a response is
returned only when the envelope serialised and that single publish call
succeeded, and it is the transport's response; in no case is there more than
one publish call. -/
theorem publish_propagates_errors (env : PubEnv α) (cli : client H) (topicName : String)
    (params : Params α) (filterTag : String) :
    (∀ err, env.Encode (cli.complete env params) = .error err →
      (cli.PublishMessage env topicName params filterTag).ret = .error err ∧
      publishes (cli.PublishMessage env topicName params filterTag).trace = []) ∧
    (∀ bytes err, env.Encode (cli.complete env params) = .ok bytes →
      env.PublishMessage (cli.getTopic topicName).2.Instance
        { MessageBody := env.EncodeBase64 bytes, MessageTag := filterTag } = .error err →
      (cli.PublishMessage env topicName params filterTag).ret = .error err ∧
      publishes (cli.PublishMessage env topicName params filterTag).trace
        = [((cli.getTopic topicName).2.Instance,
            { MessageBody := env.EncodeBase64 bytes, MessageTag := filterTag })]) ∧
    (∀ resp, (cli.PublishMessage env topicName params filterTag).ret = .ok resp →
      ∃ bytes, env.Encode (cli.complete env params) = .ok bytes ∧
        env.PublishMessage (cli.getTopic topicName).2.Instance
          { MessageBody := env.EncodeBase64 bytes, MessageTag := filterTag } = .ok resp ∧
        publishes (cli.PublishMessage env topicName params filterTag).trace
          = [((cli.getTopic topicName).2.Instance,
              { MessageBody := env.EncodeBase64 bytes, MessageTag := filterTag })]) ∧
    (publishes (cli.PublishMessage env topicName params filterTag).trace).length ≤ 1 := by
  refine ⟨?_, ?_, ?_, ?_⟩
  · intro err he
    rw [publish_encodeError env cli topicName params filterTag err he]
    simp [publishes]
  · intro bytes err he hp
    rw [publish_transportError env cli topicName params filterTag bytes err he hp]
    simp [publishes]
  · intro resp hret
    cases he : env.Encode (cli.complete env params) with
    | error err =>
      rw [publish_encodeError env cli topicName params filterTag err he] at hret
      cases hret
    | ok bytes =>
      cases hp : env.PublishMessage (cli.getTopic topicName).2.Instance
          { MessageBody := env.EncodeBase64 bytes, MessageTag := filterTag } with
      | error err =>
        rw [publish_transportError env cli topicName params filterTag bytes err he hp] at hret
        cases hret
      | ok resp1 =>
        rw [publish_ok env cli topicName params filterTag bytes resp1 he hp] at hret ⊢
        cases hret
        exact ⟨bytes, rfl, hp, by simp [publishes]⟩
  · cases he : env.Encode (cli.complete env params) with
    | error err =>
      rw [publish_encodeError env cli topicName params filterTag err he]
      simp [publishes]
    | ok bytes =>
      cases hp : env.PublishMessage (cli.getTopic topicName).2.Instance
          { MessageBody := env.EncodeBase64 bytes, MessageTag := filterTag } with
      | error err =>
        rw [publish_transportError env cli topicName params filterTag bytes err he hp]
        simp [publishes]
      | ok resp =>
        rw [publish_ok env cli topicName params filterTag bytes resp he hp]
        simp [publishes]

/-- Witness of C6: a refusing transport is called once and its error returned. -/
theorem publish_propagates_errors_witness :
    (sampleClient.PublishMessage (α := String) refusingPub "alerts"
      { Content := "hi", Tag := "", TraceId := "", Sign := "" } "urgent").ret
      = .error "denied" ∧
    publishes (sampleClient.PublishMessage (α := String) refusingPub "alerts"
      { Content := "hi", Tag := "", TraceId := "", Sign := "" } "urgent").trace
      = [("alerts", { MessageBody := "b64:hi||trace-1|md5:trace-1secret",
                      MessageTag := "urgent" })] :=
  (publish_propagates_errors refusingPub sampleClient "alerts"
    { Content := "hi", Tag := "", TraceId := "", Sign := "" } "urgent").2.1
    ("hi||trace-1|md5:trace-1secret".toList.map Char.toNat) "denied" rfl rfl

end Publishing

/-! ## Log channels -/

section Logging

variable {α H : Type}

/-- C9, as the code has it: every log record of a `ReceiveMessage` run and of a
`PublishMessage` call goes to the channel the specification assigns to its
event, except the transport (receive) failure, which is logged at the
informational level: receipt, deletion and publish are informational, a handler
failure is a warning, a decode failure is an error. -/
theorem log_channels (env : Env α H) (penv : PubEnv α) (cli : client H) (name : String)
    (k : Nat) (topicName : String) (params : Params α) (filterTag : String) :
    (∀ l n, (l, n) ∈ logs (cli.ReceiveMessage env name k).trace →
      (n = "receiveMessageFailed" ∧ l = Level.info) ∨
      (n ≠ "receiveMessageFailed" ∧ specLevel n = some l)) ∧
    (∀ l n, (l, n) ∈ logs (cli.PublishMessage penv topicName params filterTag).trace →
      n = "publishMessage" ∧ l = Level.info ∧ specLevel n = some l) ∧
    (∀ inst, (cli.GetQueue name).queueInstance = some inst →
      (∀ err, env.poll inst k = .error err →
        logs (cli.ReceiveMessage env name k).trace = [(Level.info, "receiveMessageFailed")]) ∧
      (∀ resp err, env.poll inst k = .ok resp →
        env.Decode (env.DecodeBase64 resp.MessageBody) = .error err →
        logs (cli.ReceiveMessage env name k).trace = [(Level.error, "invalidMessageBody")]) ∧
      (∀ resp p h err, env.poll inst k = .ok resp →
        env.Decode (env.DecodeBase64 resp.MessageBody) = .ok p →
        (cli.GetQueue name).handler = some h → env.call h p = some err →
        logs (cli.ReceiveMessage env name k).trace
          = [(Level.info, "receiveMessage"), (Level.warn, "processMessageFailed")]) ∧
      (∀ resp p h, env.poll inst k = .ok resp →
        env.Decode (env.DecodeBase64 resp.MessageBody) = .ok p →
        (cli.GetQueue name).handler = some h → env.call h p = none →
        logs (cli.ReceiveMessage env name k).trace
          = [(Level.info, "receiveMessage"), (Level.info, "deleteMessage")])) ∧
    (∀ resp, (cli.PublishMessage penv topicName params filterTag).ret = .ok resp →
      logs (cli.PublishMessage penv topicName params filterTag).trace
        = [(Level.info, "publishMessage")]) := by
  refine ⟨?_, ?_, ?_, ?_⟩
  · unfold client.ReceiveMessage
    apply run_cases env (localQueue cli name) k
      (fun s => ∀ l n, (l, n) ∈ logs s.trace →
        (n = "receiveMessageFailed" ∧ l = Level.info) ∨
        (n ≠ "receiveMessageFailed" ∧ specLevel n = some l))
    all_goals
      intros
      simp_all [logs]
    all_goals
      rename_i hmem
      rcases hmem with ⟨rfl, rfl⟩ | ⟨rfl, rfl⟩ <;> decide
  · intro l n
    cases he : penv.Encode (cli.complete penv params) with
    | error err =>
      rw [publish_encodeError penv cli topicName params filterTag err he]
      simp [logs]
    | ok bytes =>
      cases hp : penv.PublishMessage (cli.getTopic topicName).2.Instance
          { MessageBody := penv.EncodeBase64 bytes, MessageTag := filterTag } with
      | error err =>
        rw [publish_transportError penv cli topicName params filterTag bytes err he hp]
        simp [logs]
      | ok resp =>
        rw [publish_ok penv cli topicName params filterTag bytes resp he hp]
        simp only [logs, List.mem_singleton, Prod.mk.injEq]
        rintro ⟨rfl, rfl⟩
        exact ⟨rfl, rfl, by decide⟩
  · intro inst hq
    have hq1 := (localQueue_queueInstance cli name).trans hq
    unfold client.ReceiveMessage
    refine ⟨?_, ?_, ?_, ?_⟩
    · intro err hp
      rw [run_pollError env _ k inst err hq1 hp]
      simp [logs]
    · intro resp err hp hd
      rw [run_decodeError env _ k inst resp err hq1 hp hd]
      simp [logs]
    · intro resp p h err hp hd hh hc
      rw [run_handlerError env _ k inst resp p h err hq1 hp hd
        ((localQueue_handler cli name).trans hh) hc]
      simp [logs]
    · intro resp p h hp hd hh hc
      rw [run_handlerOk env _ k inst resp p h hq1 hp hd
        ((localQueue_handler cli name).trans hh) hc]
      simp [logs]
  · intro resp hret
    cases he : penv.Encode (cli.complete penv params) with
    | error err =>
      rw [publish_encodeError penv cli topicName params filterTag err he] at hret
      cases hret
    | ok bytes =>
      cases hp : penv.PublishMessage (cli.getTopic topicName).2.Instance
          { MessageBody := penv.EncodeBase64 bytes, MessageTag := filterTag } with
      | error err =>
        rw [publish_transportError penv cli topicName params filterTag bytes err he hp] at hret
        cases hret
      | ok resp1 =>
        rw [publish_ok penv cli topicName params filterTag bytes resp1 he hp]
        simp [logs]

/-- Counterexample to C9: when the sample transport reports an error, the one
log record of the run is written with the informational method, while the
specification assigns transport failures to the error channel. -/
theorem transport_failure_logged_as_info :
    sampleEnv.poll "orders" 2 = .error "MessageNotExist" ∧
    logs (sampleClient.ReceiveMessage sampleEnv "orders" 2).trace
      = [(Level.info, "receiveMessageFailed")] ∧
    specLevel "receiveMessageFailed" = some Level.error ∧
    ¬ (∀ l n, (l, n) ∈ logs (sampleClient.ReceiveMessage sampleEnv "orders" 2).trace →
        specLevel n = some l) := by
  refine ⟨rfl, by decide, by decide, ?_⟩
  intro hall
  exact absurd (hall Level.info "receiveMessageFailed" (by decide)) (by decide)

end Logging

/-! ## Registry claims -/

section Registry

variable {H : Type}

/-- Reading back the key just written gives the written value. -/
theorem GoMap.find_set_self {V : Type} (m : GoMap V) (k : String) (v : V) :
    (m.set k v).find k = some v := by
  unfold GoMap.find GoMap.set
  rw [List.find?_append]
  have hnone : List.find? (fun e => decide (e.1 = k))
      (List.filter (fun e => decide (e.1 ≠ k)) m) = none := by
    rw [List.find?_eq_none]
    intro e he
    have := (List.mem_filter.mp he).2
    simpa using this
  simp [hnone]

/-- A write leaves reads of other keys as they were. -/
theorem GoMap.find_set_ne {V : Type} (m : GoMap V) (k k1 : String) (v : V) (h : k1 ≠ k) :
    (m.set k v).find k1 = m.find k1 := by
  unfold GoMap.find GoMap.set
  have hfun : (fun a : String × V =>
        decide (decide (a.1 ≠ k) = true ∧ decide (a.1 = k1) = true))
      = fun a => decide (a.1 = k1) := by
    funext a
    by_cases h1 : a.1 = k1
    · simp [h1, h]
    · simp [h1]
  have hlast : List.find? (fun e : String × V => decide (e.1 = k1)) [(k, v)] = none := by
    simp [List.find?, Ne.symm h]
  rw [List.find?_append, List.find?_filter, hfun, hlast, Option.or_none]

/-- After a write the key holds exactly the written entry. -/
theorem GoMap.entries_set_self {V : Type} (m : GoMap V) (k : String) (v : V) :
    (m.set k v).entries k = [(k, v)] := by
  unfold GoMap.entries GoMap.set
  rw [List.filter_append, List.filter_filter]
  simp

/-- A write leaves the entries of other keys as they were. -/
theorem GoMap.entries_set_ne {V : Type} (m : GoMap V) (k k1 : String) (v : V)
    (h : k1 ≠ k) : (m.set k v).entries k1 = m.entries k1 := by
  unfold GoMap.entries GoMap.set
  rw [List.filter_append, List.filter_filter]
  have h1 : List.filter (fun e => decide (e.1 = k1)) [(k, v)] = [] := by
    simp [List.filter, Ne.symm h]
  rw [h1, List.append_nil]
  apply List.filter_congr
  intro e _
  by_cases hek1 : e.1 = k1
  · simp [hek1, h]
  · simp [hek1]

/-- `NewClient` satisfies the registry invariant. -/
theorem NewClient_WF (secret : String) : (NewClient H secret).WF := by
  intro e he
  simp [NewClient] at he

/-- `AddQueue` keeps the registry invariant. -/
theorem AddQueue_WF (cli : client H) (name : String) (handler : Option H) (w : Int)
    (hwf : cli.WF) : (cli.AddQueue name handler w).WF := by
  intro e he
  simp only [client.AddQueue, GoMap.set, List.mem_append, List.mem_filter,
    List.mem_singleton] at he
  rcases he with ⟨hmem, _⟩ | rfl
  · exact hwf e hmem
  · rfl

/-- Registering twice under one name leaves the other entries and the second
queue value. -/
theorem AddQueue_twice_items (cli : client H) (n : String) (h1 h2 : Option H) (w1 w2 : Int) :
    ((cli.AddQueue n h1 w1).AddQueue n h2 w2).queueItems
      = List.filter (fun e => decide (e.1 ≠ n)) cli.queueItems
        ++ [(n, { Name := n, handler := h2, WaitSecond := w2, queueInstance := some n })] := by
  simp [client.AddQueue, GoMap.set, List.filter_append, List.filter_filter]

/-- The names `ListenQueues` starts a consumption for, after registering `n`
twice: those of the other queues with a handler, then `n` if `h2` is one. -/
theorem ListenQueues_twice (cli : client H) (n : String) (h1 h2 : Option H) (w1 w2 : Int) :
    ((cli.AddQueue n h1 w1).AddQueue n h2 w2).ListenQueues
      = ((List.filter (fun e => decide (e.1 ≠ n)) cli.queueItems).filter
            (fun e => e.2.HasHandler)).map (fun e => e.2.Name)
        ++ (if h2.isSome then [n] else []) := by
  unfold client.ListenQueues
  rw [AddQueue_twice_items]
  cases h2 <;> simp [Queue.HasHandler, List.filter_append, List.filter]

/-- C7: registering `n` with `(h1, w1)` and then with `(h2, w2)` leaves exactly
one entry under `n`, the queue with handler `h2` and wait seconds `w2`; the
entries and the queue read under every other name are unchanged; `ListenQueues`
starts at most one consumption for `n`, and every handler invocation of a
`ReceiveMessage` run for `n` is an invocation of `h2`. -/
theorem reregistration_replaces {α : Type} (cli : client H) (n : String) (h1 h2 : Option H)
    (w1 w2 : Int) (hwf : cli.WF) :
    ((cli.AddQueue n h1 w1).AddQueue n h2 w2).queueItems.entries n
      = [(n, { Name := n, handler := h2, WaitSecond := w2, queueInstance := some n })] ∧
    ((cli.AddQueue n h1 w1).AddQueue n h2 w2).GetQueue n
      = { Name := n, handler := h2, WaitSecond := w2, queueInstance := some n } ∧
    (∀ m, m ≠ n →
      ((cli.AddQueue n h1 w1).AddQueue n h2 w2).queueItems.entries m
        = cli.queueItems.entries m ∧
      ((cli.AddQueue n h1 w1).AddQueue n h2 w2).GetQueue m = cli.GetQueue m) ∧
    List.count n ((cli.AddQueue n h1 w1).AddQueue n h2 w2).ListenQueues
      = (if h2.isSome then 1 else 0) ∧
    (∀ (env : Env α H) (k : Nat) (c : H × Params α),
      c ∈ handles (((cli.AddQueue n h1 w1).AddQueue n h2 w2).ReceiveMessage env n k).trace →
      h2 = some c.1) := by
  have hget : ((cli.AddQueue n h1 w1).AddQueue n h2 w2).GetQueue n
      = { Name := n, handler := h2, WaitSecond := w2, queueInstance := some n } := by
    simp [client.GetQueue, client.AddQueue, GoMap.find_set_self]
  refine ⟨?_, hget, ?_, ?_, ?_⟩
  · simp [client.AddQueue, GoMap.entries_set_self]
  · intro m hm
    constructor
    · simp [client.AddQueue, GoMap.entries_set_ne _ _ _ _ hm]
    · simp [client.GetQueue, client.AddQueue, GoMap.find_set_ne _ _ _ _ hm]
  · rw [ListenQueues_twice, List.count_append]
    have hzero : List.count n
        (((List.filter (fun e => decide (e.1 ≠ n)) cli.queueItems).filter
            (fun e => e.2.HasHandler)).map (fun e => e.2.Name)) = 0 := by
      rw [List.count_eq_zero]
      intro hmem
      obtain ⟨e, he, hname⟩ := List.mem_map.mp hmem
      have he1 := (List.mem_filter.mp he).1
      have he2 := List.mem_filter.mp he1
      have hkey : e.1 ≠ n := by simpa using he2.2
      exact hkey ((hwf e he2.1).symm.trans hname)
    rw [hzero]
    cases h2 <;> simp
  · intro env k c hc
    have hh : (localQueue ((cli.AddQueue n h1 w1).AddQueue n h2 w2) n).handler = h2 := by
      rw [localQueue_handler, hget]
    revert hc
    unfold client.ReceiveMessage
    apply run_cases env (localQueue ((cli.AddQueue n h1 w1).AddQueue n h2 w2) n) k
      (fun s => c ∈ handles s.trace → h2 = some c.1)
    all_goals
      intros
      simp_all [handles]

/-- Witness of C7: `"orders"` re-registered with the failing handler `2`. -/
theorem reregistration_replaces_witness :
    (sampleClient.AddQueue "orders" (some 2) 7).GetQueue "orders"
      = { Name := "orders", handler := some 2, WaitSecond := 7,
          queueInstance := some "orders" } ∧
    List.count "orders" (sampleClient.AddQueue "orders" (some 2) 7).ListenQueues = 1 :=
  have h := reregistration_replaces (α := String) (NewClient Nat "secret") "orders"
    (some 1) (some 2) 5 7 (NewClient_WF "secret")
  ⟨h.2.1, h.2.2.2.1⟩

end Registry

/-! ## Round trip of the wire encoding -/

section Wire

/-- The code of a character is a Unicode scalar value. -/
theorem char_toNat_valid (c : Char) : c.toNat.isValidChar := c.valid

/-- Decoding reads back one encoded character and goes on with the rest. -/
theorem utf8Decode_encodeChar (c : Char) (bs : Bytes) :
    utf8Decode (utf8EncodeChar c ++ bs) = (utf8Decode bs).map (fun s => c :: s) := by
  have hv := char_toNat_valid c
  have hc : Char.ofNat c.toNat = c := Char.ofNat_toNat c
  unfold Nat.isValidChar at hv
  unfold utf8EncodeChar
  simp only
  split_ifs with h1 h2 h3
  · rw [List.singleton_append, utf8Decode.eq_def]
    simp [h1, hc]
  · have e : c.toNat / 64 * 64 + c.toNat % 64 = c.toNat := by omega
    have g1 : ¬ (192 + c.toNat / 64 < 128) := by omega
    have g2 : 192 + c.toNat / 64 < 224 := by omega
    have g3 : 128 + c.toNat % 64 < 192 := by omega
    have g4 : 128 ≤ c.toNat := by omega
    rw [List.cons_append, List.singleton_append, utf8Decode.eq_def]
    simp [isCont, g1, g2, g3, e, g4, hc]
  · have e : c.toNat / 4096 * 4096 + c.toNat / 64 % 64 * 64 + c.toNat % 64 = c.toNat := by
      omega
    have g1 : ¬ (224 + c.toNat / 4096 < 128) := by omega
    have g2 : ¬ (224 + c.toNat / 4096 < 224) := by omega
    have g3 : 224 + c.toNat / 4096 < 240 := by omega
    have g4 : 128 + c.toNat / 64 % 64 < 192 := by omega
    have g5 : 128 + c.toNat % 64 < 192 := by omega
    have g6 : 2048 ≤ c.toNat := by omega
    have g7 : c.toNat.isValidChar := char_toNat_valid c
    rw [List.cons_append, List.cons_append, List.singleton_append, utf8Decode.eq_def]
    simp [isCont, g1, g2, g3, g4, g5, e, g6, g7, hc]
  · have e : c.toNat / 262144 * 262144 + c.toNat / 4096 % 64 * 4096 + c.toNat / 64 % 64 * 64
        + c.toNat % 64 = c.toNat := by
      omega
    have g1 : ¬ (240 + c.toNat / 262144 < 128) := by omega
    have g2 : ¬ (240 + c.toNat / 262144 < 224) := by omega
    have g3 : ¬ (240 + c.toNat / 262144 < 240) := by omega
    have g4 : 240 + c.toNat / 262144 < 248 := by omega
    have g5 : 128 + c.toNat / 4096 % 64 < 192 := by omega
    have g6 : 128 + c.toNat / 64 % 64 < 192 := by omega
    have g7 : 128 + c.toNat % 64 < 192 := by omega
    have g8 : 65536 ≤ c.toNat := by omega
    have g9 : c.toNat.isValidChar := char_toNat_valid c
    rw [List.cons_append, List.cons_append, List.cons_append, List.singleton_append,
      utf8Decode.eq_def]
    simp [isCont, g1, g2, g3, g4, g5, g6, g7, e, g8, g9, hc]

/-- Decoding the bytes of a text gives the text back. -/
theorem utf8Decode_encode (s : List Char) : utf8Decode (utf8Encode s) = some s := by
  induction s with
  | nil => simp [utf8Encode, utf8Decode]
  | cons c s ih => simp [utf8Encode, utf8Decode_encodeChar, ih]

/-- Every byte of an encoded character is below 256. -/
theorem utf8EncodeChar_lt (c : Char) : ∀ b ∈ utf8EncodeChar c, b < 256 := by
  have hv := char_toNat_valid c
  unfold Nat.isValidChar at hv
  unfold utf8EncodeChar
  simp only
  split_ifs with h1 h2 h3 <;> simp <;> omega

/-- Every byte of an encoded text is below 256. -/
theorem utf8Encode_lt (s : List Char) : ∀ b ∈ utf8Encode s, b < 256 := by
  induction s with
  | nil => simp [utf8Encode]
  | cons c s ih =>
    intro b hb
    simp only [utf8Encode, List.mem_append] at hb
    rcases hb with hb | hb
    · exact utf8EncodeChar_lt c b hb
    · exact ih b hb

/-- A base64 digit reads back as the six-bit value it stands for. -/
theorem b64Val_b64Char (n : Nat) (h : n < 64) : b64Val (b64Char n) = some n := by
  have hall : ∀ m, m < 64 → b64Val (b64Char m) = some m := by decide
  exact hall n h

/-- No base64 digit is the padding character. -/
theorem b64Char_ne_pad (n : Nat) (h : n < 64) : b64Char n ≠ '=' := by
  have hall : ∀ m, m < 64 → b64Char m ≠ '=' := by decide
  exact hall n h

/-- Decoding the base64 form of a byte sequence gives the bytes back. -/
theorem base64Decode_encode :
    ∀ bs : Bytes, (∀ b ∈ bs, b < 256) → base64Decode (base64Encode bs) = some bs
  | [], _ => by simp [base64Encode, base64Decode]
  | [a], h => by
    have ha : a < 256 := h a (by simp)
    have v0 := b64Val_b64Char (a / 4) (by omega)
    have v1 := b64Val_b64Char (a % 4 * 16) (by omega)
    simp only [base64Encode]
    rw [base64Decode.eq_def]
    simp [v0, v1]
    omega
  | [a, b], h => by
    have ha : a < 256 := h a (by simp)
    have hb : b < 256 := h b (by simp)
    have v0 := b64Val_b64Char (a / 4) (by omega)
    have v1 := b64Val_b64Char (a % 4 * 16 + b / 16) (by omega)
    have v2 := b64Val_b64Char (b % 16 * 4) (by omega)
    have p2 := b64Char_ne_pad (b % 16 * 4) (by omega)
    have e0 : a / 4 * 4 + (a % 4 * 16 + b / 16) / 16 = a := by omega
    simp only [base64Encode]
    rw [base64Decode.eq_def]
    simp [v0, v1, v2, p2, e0]
    omega
  | a :: b :: c :: rest, h => by
    have ha : a < 256 := h a (by simp)
    have hb : b < 256 := h b (by simp)
    have hc : c < 256 := h c (by simp)
    have ih := base64Decode_encode rest (fun x hx => h x (by simp [hx]))
    have v0 := b64Val_b64Char (a / 4) (by omega)
    have v1 := b64Val_b64Char (a % 4 * 16 + b / 16) (by omega)
    have v2 := b64Val_b64Char (b % 16 * 4 + c / 64) (by omega)
    have v3 := b64Val_b64Char (c % 64) (by omega)
    have p3 := b64Char_ne_pad (c % 64) (by omega)
    have e0 : a / 4 * 4 + (a % 4 * 16 + b / 16) / 16 = a := by omega
    have e1 : (a % 4 * 16 + b / 16) % 16 * 16 + (b % 16 * 4 + c / 64) / 4 = b := by omega
    have e2 : (b % 16 * 4 + c / 64) % 4 * 64 + c % 64 = c := by omega
    simp only [base64Encode]
    rw [base64Decode.eq_def]
    simp [v0, v1, v2, v3, p3, e0, e1, e2, ih]

/-- `DecodeBase64` undoes `EncodeBase64` on byte values. -/
theorem DecodeBase64_EncodeBase64 (bs : Bytes) (h : ∀ b ∈ bs, b < 256) :
    strings.DecodeBase64 (strings.EncodeBase64 bs) = bs := by
  simp [strings.DecodeBase64, strings.EncodeBase64, base64Decode_encode bs h]


/-- A hexadecimal digit reads back as its value. -/
theorem hexVal_hexDigit (n : Nat) (h : n < 16) : hexVal (hexDigit n) = some n := by
  have hall : ∀ m, m < 16 → hexVal (hexDigit m) = some m := by decide
  exact hall n h

/-- The closing quote ends the string. -/
theorem parseStringBody_quote (rest : List Char) :
    parseStringBody (quote :: rest) = some ([], rest) := by
  rw [parseStringBody.eq_def]
  simp

/-- A single-letter escape reads as the character it stands for. -/
theorem parseStringBody_letter (e ch : Char) (rest : List Char) (hu : e ≠ 'u')
    (he : unescapeChar e = some ch) :
    parseStringBody (backslash :: e :: rest)
      = (parseStringBody rest).map (fun x => (ch :: x.1, x.2)) := by
  have hq : backslash ≠ quote := by decide
  rw [parseStringBody.eq_def]
  simp only [hq, if_false, if_true, hu, he]
  cases parseStringBody rest with
  | none => rfl
  | some x => rfl

/-- A four-digit escape reads as the character with that code. -/
theorem parseStringBody_hex (a b c d ch : Char) (rest : List Char)
    (he : hexEscape a b c d = some ch) :
    parseStringBody (backslash :: 'u' :: a :: b :: c :: d :: rest)
      = (parseStringBody rest).map (fun x => (ch :: x.1, x.2)) := by
  have hq : backslash ≠ quote := by decide
  rw [parseStringBody.eq_def]
  simp only [hq, if_false, if_true, he]
  cases parseStringBody rest with
  | none => rfl
  | some x => rfl

/-- A character that is neither quote, backslash nor control reads as itself. -/
theorem parseStringBody_plain (c : Char) (rest : List Char) (h1 : c ≠ quote)
    (h2 : c ≠ backslash) (h3 : ¬ c.toNat < 0x20) :
    parseStringBody (c :: rest)
      = (parseStringBody rest).map (fun x => (c :: x.1, x.2)) := by
  rw [parseStringBody.eq_def]
  simp only [h1, h2, h3, if_false]
  cases parseStringBody rest with
  | none => rfl
  | some x => rfl

/-- The four digits written for a character that needs them read back as it. -/
theorem hexEscape_digits (c : Char) (h : c.toNat < 65536) :
    hexEscape (hexDigit (c.toNat / 4096)) (hexDigit (c.toNat / 256 % 16))
      (hexDigit (c.toNat / 16 % 16)) (hexDigit (c.toNat % 16)) = some c := by
  have v3 := hexVal_hexDigit (c.toNat / 4096) (by omega)
  have v2 := hexVal_hexDigit (c.toNat / 256 % 16) (by omega)
  have v1 := hexVal_hexDigit (c.toNat / 16 % 16) (by omega)
  have v0 := hexVal_hexDigit (c.toNat % 16) (by omega)
  have e : ((c.toNat / 4096 * 16 + c.toNat / 256 % 16) * 16 + c.toNat / 16 % 16) * 16
      + c.toNat % 16 = c.toNat := by omega
  simp only [hexEscape, v3, v2, v1, v0, e, char_toNat_valid c, if_true, Char.ofNat_toNat]

/-- The parser reads the escaped form of one character back as that character. -/
theorem parseStringBody_escapeChar (c : Char) (tail : List Char) :
    parseStringBody (escapeChar c ++ tail)
      = (parseStringBody tail).map (fun x => (c :: x.1, x.2)) := by
  unfold escapeChar
  split_ifs with h1 h2 h3 h4 h5 h6
  · subst h1
    exact parseStringBody_letter quote quote tail (by decide) (by decide)
  · subst h2
    exact parseStringBody_letter backslash backslash tail (by decide) (by decide)
  · subst h3
    exact parseStringBody_letter 'n' (Char.ofNat 10) tail (by decide) (by decide)
  · subst h4
    exact parseStringBody_letter 'r' (Char.ofNat 13) tail (by decide) (by decide)
  · subst h5
    exact parseStringBody_letter 't' (Char.ofNat 9) tail (by decide) (by decide)
  · have hlt : c.toNat < 65536 := by
      simp only [needsHexEscape, decide_eq_true_eq] at h6
      omega
    exact parseStringBody_hex _ _ _ _ c tail (hexEscape_digits c hlt)
  · have hge : ¬ c.toNat < 0x20 := by
      simp only [needsHexEscape, decide_eq_true_eq] at h6
      omega
    exact parseStringBody_plain c tail h1 h2 hge

/-- The parser reads an escaped string up to its closing quote. -/
theorem parseStringBody_escape (s rest : List Char) :
    parseStringBody (escape s ++ quote :: rest) = some (s, rest) := by
  induction s with
  | nil => simpa [escape] using parseStringBody_quote rest
  | cons c s ih =>
    simp only [escape, List.append_assoc]
    rw [parseStringBody_escapeChar, ih]
    rfl


/-- White space skipping stops at a character that is not white space. -/
theorem skipWs_cons (c : Char) (rest : List Char)
    (h : ¬ (c = ' ' ∨ c = Char.ofNat 9 ∨ c = Char.ofNat 10 ∨ c = Char.ofNat 13)) :
    skipWs (c :: rest) = c :: rest := by
  simp only [skipWs, h, if_false]

/-- The expected character is read when it comes first. -/
theorem expect_hit (c : Char) (rest : List Char)
    (h : ¬ (c = ' ' ∨ c = Char.ofNat 9 ∨ c = Char.ofNat 10 ∨ c = Char.ofNat 13)) :
    expect c (c :: rest) = some rest := by
  simp only [expect, skipWs_cons c rest h, if_true]

/-- Another character in first place is refused. -/
theorem expect_miss (c d : Char) (rest : List Char)
    (h : ¬ (d = ' ' ∨ d = Char.ofNat 9 ∨ d = Char.ofNat 10 ∨ d = Char.ofNat 13))
    (hne : d ≠ c) : expect c (d :: rest) = none := by
  simp only [expect, skipWs_cons d rest h, hne, if_false]

/-- An encoded string is read back whole. -/
theorem parseQuoted_encodeString (s rest : List Char) :
    parseQuoted (encodeString s ++ rest) = some (s, rest) := by
  have hq : encodeString s ++ rest = quote :: (escape s ++ quote :: rest) := by
    simp [encodeString]
  rw [hq, parseQuoted, expect_hit quote _ (by decide)]
  exact parseStringBody_escape s rest

/-- A member followed by a comma is stored and the parser goes on. -/
theorem parseMembers_comma (fuel : Nat) (key val : String) (rest : List Char)
    (p : Params String) :
    parseMembers (fuel + 1) (encodeMember key val ++ ',' :: rest) p
      = parseMembers fuel rest (setField p key.toList val.toList) := by
  have h1 : encodeMember key val ++ ',' :: rest
      = encodeString key.toList ++ (':' :: (encodeString val.toList ++ ',' :: rest)) := by
    simp [encodeMember]
  rw [h1, parseMembers]
  simp only [parseQuoted_encodeString, expect_hit ':' _ (by decide),
    skipWs_cons ',' rest (by decide), if_true]

/-- A member followed by the closing brace is stored and ends the object. -/
theorem parseMembers_rbrace (fuel : Nat) (key val : String) (rest : List Char)
    (p : Params String) :
    parseMembers (fuel + 1) (encodeMember key val ++ rbrace :: rest) p
      = some (setField p key.toList val.toList, rest) := by
  have h1 : encodeMember key val ++ rbrace :: rest
      = encodeString key.toList ++ (':' :: (encodeString val.toList ++ rbrace :: rest)) := by
    simp [encodeMember]
  have hne : rbrace ≠ ',' := by decide
  rw [h1, parseMembers]
  simp only [parseQuoted_encodeString, expect_hit ':' _ (by decide),
    skipWs_cons rbrace rest (by decide), hne, if_false, if_true]

/-- The canonical text has room for its four members. -/
theorem jsonText_length (p : Params String) : ∃ n, (jsonText p).length = n + 4 := by
  refine ⟨(jsonText p).length - 4, ?_⟩
  have : 4 ≤ (jsonText p).length := by
    simp only [jsonText, encodeMember, encodeString, List.length_cons, List.length_append]
    omega
  omega

/-- The four stores of a decoded canonical text rebuild the envelope. -/
theorem setField_all (p : Params String) :
    setField (setField (setField (setField Params.zero "content".toList p.Content.toList)
      "tag".toList p.Tag.toList) "traceId".toList p.TraceId.toList) "sign".toList p.Sign.toList
      = p := by
  have h1 : "tag".toList ≠ "content".toList := by decide
  have h2 : "traceId".toList ≠ "content".toList := by decide
  have h3 : "traceId".toList ≠ "tag".toList := by decide
  have h4 : "sign".toList ≠ "content".toList := by decide
  have h5 : "sign".toList ≠ "tag".toList := by decide
  have h6 : "sign".toList ≠ "traceId".toList := by decide
  simp only [setField, h1, h2, h3, h4, h5, h6, if_true, if_false]
  rfl

/-- Structural deserialisation of the canonical text of an envelope gives the
envelope back. -/
theorem parseObject_jsonText (p : Params String) : parseObject (jsonText p) = some p := by
  obtain ⟨n, hn⟩ := jsonText_length p
  have hshape : jsonText p = lbrace :: (encodeMember "content" p.Content ++ ',' ::
      (encodeMember "tag" p.Tag ++ ',' :: (encodeMember "traceId" p.TraceId
      ++ ',' :: (encodeMember "sign" p.Sign ++ [rbrace])))) := rfl
  have hfirst : ∀ rest, encodeMember "content" p.Content ++ rest
      = quote :: (escape "content".toList ++ quote :: ':' ::
          (encodeString p.Content.toList ++ rest)) := by
    intro rest
    simp [encodeMember, encodeString]
  unfold parseObject
  rw [hn]
  rw [hshape, expect_hit lbrace _ (by decide)]
  simp only
  rw [hfirst, expect_miss rbrace quote _ (by decide) (by decide), ← hfirst]
  simp only
  rw [parseMembers_comma, parseMembers_comma, parseMembers_comma, parseMembers_rbrace,
    setField_all]
  simp [skipWs]

/-- Decoding the JSON bytes of an envelope gives the envelope back. -/
theorem Decode_Encode (p : Params String) :
    ∃ bytes, json.Encode p = .ok bytes ∧ (∀ b ∈ bytes, b < 256) ∧ json.Decode bytes = .ok p := by
  refine ⟨utf8Encode (jsonText p), rfl, utf8Encode_lt _, ?_⟩
  simp [json.Decode, utf8Decode_encode, parseObject_jsonText]


/-- C5: for every envelope with text content, tag, trace id and sign, the
publisher's encoding (JSON, then base64) succeeds and the consumer's decoding
of it (base64, then JSON) succeeds and gives the same envelope; and the body of
every request `PublishMessage` hands to the transport under the wire encoding
decodes, the way `ReceiveMessage` decodes it, to the completed envelope. -/
theorem wire_roundtrip {H : Type} (e : Params String) :
    (∃ bytes, json.Encode e = .ok bytes ∧
      json.Decode (strings.DecodeBase64 (strings.EncodeBase64 bytes)) = .ok e) ∧
    (∀ (pbase : PubEnv String) (base : Env String H) (cli : client H)
        (topicName filterTag : String) (r : String × MessagePublishRequest),
      r ∈ publishes (α := String)
            (cli.PublishMessage (wirePub pbase) topicName e filterTag).trace →
      (wireEnv base).Decode ((wireEnv base).DecodeBase64 r.2.MessageBody)
        = .ok (cli.complete (wirePub pbase) e)) := by
  have key : ∀ p : Params String,
      json.Decode (strings.DecodeBase64 (strings.EncodeBase64 (utf8Encode (jsonText p))))
        = .ok p := by
    intro p
    obtain ⟨bytes, hb, hlt, hd⟩ := Decode_Encode p
    cases hb
    rw [DecodeBase64_EncodeBase64 _ hlt]
    exact hd
  refine ⟨⟨utf8Encode (jsonText e), rfl, key e⟩, ?_⟩
  intro pbase base cli topicName filterTag r hr
  have he : (wirePub pbase).Encode (cli.complete (wirePub pbase) e)
      = .ok (utf8Encode (jsonText (cli.complete (wirePub pbase) e))) := rfl
  have hbody : r.2.MessageBody
      = strings.EncodeBase64 (utf8Encode (jsonText (cli.complete (wirePub pbase) e))) := by
    cases hp : (wirePub pbase).PublishMessage (cli.getTopic topicName).2.Instance
        { MessageBody := (wirePub pbase).EncodeBase64
            (utf8Encode (jsonText (cli.complete (wirePub pbase) e))),
          MessageTag := filterTag } with
    | error err =>
      rw [publish_transportError (wirePub pbase) cli topicName e filterTag _ err he hp] at hr
      simp only [publishes, List.mem_singleton] at hr
      rw [hr]
      rfl
    | ok resp =>
      rw [publish_ok (wirePub pbase) cli topicName e filterTag _ resp he hp] at hr
      simp only [publishes, List.mem_singleton] at hr
      rw [hr]
      rfl
  show json.Decode (strings.DecodeBase64 r.2.MessageBody) = _
  rw [hbody]
  exact key _

end Wire

end Mns
